import Mathlib

/-!
Verification development for the smart-order-router core.

The TypeScript sources are shallowly embedded below: pure functions become
Lean functions, JS objects become structures, machine `number` percentages
become `Int`, exact big-integer / `Fraction` currency arithmetic becomes `ℚ`,
`BigNumber` gas amounts become `Nat`, and a thrown JS `TypeError` becomes
`Except.error`.  `null`/`undefined` results are `Option`.
-/

set_option allowUnsafeReducibility true in
attribute [semireducible] Rat.add Rat.mul Rat.inv Rat.sub Rat.neg Rat.div Rat.blt

/-- A token of the external SDK.  Per the spec's data model (§3) two tokens are
equal iff `chainId` and `address` match case-insensitively; the SDK's
`Token.equals` is embedded accordingly. -/
structure Token where
  chainId : Nat
  address : String
  symbol : String
deriving DecidableEq, Repr

/-- The SDK's `Token.equals`: equality on `(chainId, address)`.  Address
comparison is case-insensitive (spec §3); the SDK stores addresses in a
validated canonical form, which we embed by taking `address` to be the
canonical string, so the comparison is plain string equality. -/
def Token.equals (a b : Token) : Bool :=
  a.chainId == b.chainId && a.address == b.address

/-- A liquidity pool.  Only the fields the routing core reads are embedded:
`token0`, `token1`, `fee`.  Live state (`liquidity`, `sqrtPriceX96`, `tick`)
is irrelevant to every claim below. -/
structure Pool where
  token0 : Token
  token1 : Token
  fee : Nat
deriving DecidableEq, Repr

/-- The v3 SDK's `Pool.getAddress(token0, token1, fee)` computes a
deterministic on-chain address from the tuple (spec §3: "Pool identity is
`getAddress(token0, token1, fee)`, deterministic from the tuple").  We embed
that deterministic identity by the distinguishing tuple itself. -/
def Pool.getAddress (p : Pool) : String × String × Nat :=
  (p.token0.address, p.token1.address, p.fee)

/-- The SDK's `pool.involvesToken(t)`. -/
def Pool.involvesToken (p : Pool) (t : Token) : Bool :=
  p.token0.equals t || p.token1.equals t

/-- `RouteSOR` from `src/routers/router.ts`: an ordered pool path with its
endpoints. -/
structure RouteSOR where
  pools : List Pool
  input : Token
  output : Token
deriving DecidableEq, Repr

/-- The SDK trade direction. -/
inductive TradeType where
  | EXACT_INPUT
  | EXACT_OUTPUT
deriving DecidableEq, Repr

/-- `AmountQuote` from the quote provider: optional fields absent signal a
failed quote (spec §3). -/
structure AmountQuote where
  amount : ℚ
  quote : Option ℚ
  sqrtPriceX96AfterList : Option (List ℚ)
  initializedTicksCrossedList : Option (List Nat)
  gasEstimate : Option Nat
deriving DecidableEq, Repr

/-- Modelled from the spec: the `RouteWithValidQuote` entity
(`src/routers/alpha-router/entities/route-with-valid-quote.ts` is not in the
repository snapshot; only its callers in `alpha-router.ts` are).  Spec §3:
`{ route, amount, rawQuote, quoteAdjustedForGas, gasEstimate, percent, ... }`
with `quoteAdjustedForGas = rawQuote − gasCostInQuoteToken` for EXACT_IN and
`rawQuote + gasCostInQuoteToken` for EXACT_OUT.  `alpha-router.ts` reads the
raw quote back as `.quote`. -/
structure RouteWithValidQuote where
  route : RouteSOR
  amount : ℚ
  quote : ℚ
  quoteAdjustedForGas : ℚ
  gasEstimate : Nat
  percent : Int
deriving DecidableEq, Repr

/-- The gas model (C6 of the spec) is an external collaborator here: a
function giving `gasCostInQuoteToken` from a route and the quoter's gas
estimate. -/
def GasModel : Type := RouteSOR → Nat → ℚ

/-- Modelled from the spec: construction of a `RouteWithValidQuote`
(entity file absent from the snapshot), per spec §3's formula for
`quoteAdjustedForGas`. -/
def mkRouteWithValidQuote (gasModel : GasModel) (tradeType : TradeType)
    (route : RouteSOR) (rawQuote : ℚ) (amount : ℚ) (percent : Int)
    (quoterGasEstimate : Nat) : RouteWithValidQuote :=
  { route := route
    amount := amount
    quote := rawQuote
    quoteAdjustedForGas :=
      match tradeType with
      | .EXACT_INPUT => rawQuote - gasModel route quoterGasEstimate
      | .EXACT_OUTPUT => rawQuote + gasModel route quoterGasEstimate
    gasEstimate := quoterGasEstimate
    percent := percent }

/-- `RouteAmount` from `src/routers/router.ts`. -/
structure RouteAmount where
  route : RouteSOR
  amount : ℚ
  quote : ℚ
  quoteGasAdjusted : ℚ
  percentage : Int
  estimatedGasUsed : Nat
deriving DecidableEq, Repr

/-- The record `getBestSwapRouteBy` returns (sans the provider-level fields
`gasPriceWei`, `blockNumber`, `methodParameters` added by the orchestrator). -/
structure SwapPlanRaw where
  quote : ℚ
  quoteGasAdjusted : ℚ
  estimatedGasUsed : Nat
  routeAmounts : List RouteAmount
deriving DecidableEq, Repr

/-- The JS object `{ [percent: number]: RouteWithValidQuote[] }`, embedded as
an association list with unique keys (keys are created on first push). -/
def Buckets : Type := List (Int × List RouteWithValidQuote)

/-- Reading `obj[percent]` on the bucket object: `none` is JS `undefined`. -/
def lookupBucket (bs : Buckets) (p : Int) : Option (List RouteWithValidQuote) :=
  (bs.find? (fun e => e.1 == p)).map (fun e => e.2)

/-- The `if (!percentToQuotes[percent]) { ... = [] }; push(...)` idiom of
`getBestSwapRoute`: append to the bucket for `p`, creating it if absent. -/
def pushBucket (bs : Buckets) (p : Int) (q : RouteWithValidQuote) : Buckets :=
  match bs with
  | [] => [(p, [q])]
  | (k, l) :: rest =>
    if k == p then (k, l ++ [q]) :: rest else (k, l) :: pushBucket rest p q

/-- The validity test of `getBestSwapRoute` (alpha-router.ts lines 342-357):
a quote is dropped iff any of the four fields is nullish. -/
def isValidAmountQuote (aq : AmountQuote) : Bool :=
  aq.quote.isSome && aq.sqrtPriceX96AfterList.isSome &&
    aq.initializedTicksCrossedList.isSome && aq.gasEstimate.isSome

/-- The inner-loop body of the bucketing pass of `getBestSwapRoute`
(alpha-router.ts lines 331-377): drop the quote if any of `quote`,
`sqrtPriceX96AfterList`, `initializedTicksCrossedList`, `gasEstimate` is
nullish, otherwise build a `RouteWithValidQuote` and push it into the bucket
of its percent. -/
def quoteStep (gasModel : GasModel) (routeType : TradeType) (route : RouteSOR)
    (bs : Buckets) (pq : Int × AmountQuote) : Buckets :=
  match pq.2.quote, pq.2.sqrtPriceX96AfterList,
        pq.2.initializedTicksCrossedList, pq.2.gasEstimate with
  | some quote, some _, some _, some gasEstimate =>
    pushBucket bs pq.1
      (mkRouteWithValidQuote gasModel routeType route quote pq.2.amount pq.1 gasEstimate)
  | _, _, _, _ => bs

/-- The per-route iteration of the bucketing pass: pair the route's quotes
positionally with `percents` and process each. -/
def routeStep (gasModel : GasModel) (routeType : TradeType) (percents : List Int)
    (bs : Buckets) (rwq : RouteSOR × List AmountQuote) : Buckets :=
  (percents.zip rwq.2).foldl (quoteStep gasModel routeType rwq.1) bs

/-- The bucketing loop of `getBestSwapRoute` (alpha-router.ts lines 328-378):
for each route, pair its quotes positionally with `percents`, drop invalid
quotes, and push the rest into the bucket of their percent. -/
def buildPercentToQuotes (gasModel : GasModel) (routeType : TradeType)
    (percents : List Int) (routesWithQuotes : List (RouteSOR × List AmountQuote)) :
    Buckets :=
  routesWithQuotes.foldl (routeStep gasModel routeType percents) []

/-- Insert `a` into `acc`, placing it before the first element it strictly
precedes.  Folding this over a list is a stable sort, matching the stable
ECMAScript `Array.prototype.sort`. -/
def insertBy {α : Type} (before : α → α → Bool) (a : α) : List α → List α
  | [] => [a]
  | b :: bs => if before a b then a :: b :: bs else b :: insertBy before a bs

/-- Stable sort by a strict "comes before" comparator, the embedding of the
JS `.sort((a, b) => ...)` calls. -/
def sortByComparator {α : Type} (before : α → α → Bool) (l : List α) : List α :=
  l.foldl (fun acc a => insertBy before a acc) []

/-- The per-bucket comparator of `getBestSwapRouteBy` (lines 430-436):
`a` sorts first iff `by(a) > by(b)` for EXACT_IN, `by(a) < by(b)` for
EXACT_OUT. -/
def bucketComparator (routeType : TradeType) (quoteOf : RouteWithValidQuote → ℚ)
    (a b : RouteWithValidQuote) : Bool :=
  match routeType with
  | .EXACT_INPUT => decide (quoteOf b < quoteOf a)
  | .EXACT_OUTPUT => decide (quoteOf a < quoteOf b)

/-- The `_.mapValues(percentToQuotes, sort ...)` step (lines 427-438). -/
def sortBuckets (routeType : TradeType) (quoteOf : RouteWithValidQuote → ℚ)
    (bs : Buckets) : Buckets :=
  bs.map (fun e => (e.1, sortByComparator (bucketComparator routeType quoteOf) e.2))

/-- `quoteCompFn` (lines 487-490): `a.greaterThan(b)` for EXACT_IN,
`a.lessThan(b)` for EXACT_OUT. -/
def quoteCompFn (routeType : TradeType) (a b : ℚ) : Bool :=
  match routeType with
  | .EXACT_INPUT => decide (b < a)
  | .EXACT_OUTPUT => decide (a < b)

/-- `findFirstRouteNotUsingUsedPools` (lines 444-473): first candidate whose
route shares no pool address with any used route. -/
def findFirstRouteNotUsingUsedPools (usedRoutes : List RouteSOR)
    (candidateRouteQuotes : List RouteWithValidQuote) : Option RouteWithValidQuote :=
  candidateRouteQuotes.find? (fun rq =>
    ! rq.route.pools.any (fun pool =>
      (((usedRoutes.map (fun r => r.pools)).flatten).map Pool.getAddress).contains
        (Pool.getAddress pool)))

/-- The running `(bestQuote, bestSwap)` pair of `getBestSwapRouteBy`. -/
structure BestState where
  bestQuote : ℚ
  bestSwap : List RouteWithValidQuote
deriving DecidableEq, Repr

/-- One iteration of the 2-split loop (lines 496-524).  The reads
`percentToSortedQuotes[percentA]![0]!` carry no runtime guard in the source:
a missing (or empty) bucket is a thrown `TypeError`, embedded as
`Except.error`.  The `percentB` bucket IS guarded (`if (!candidateRoutesB)
continue`). -/
def split2Step (routeType : TradeType) (sorted : Buckets)
    (quoteOf : RouteWithValidQuote → ℚ) (st : BestState) (percentA : Int) :
    Except String BestState :=
  match lookupBucket sorted percentA with
  | none => .error "TypeError: percent bucket missing in 2-split"
  | some bucketA =>
    match bucketA.head? with
    | none => .error "TypeError: percent bucket missing in 2-split"
    | some routeWithQuoteA =>
      match lookupBucket sorted (100 - percentA) with
      | none => .ok st
      | some candidateRoutesB =>
        match findFirstRouteNotUsingUsedPools [routeWithQuoteA.route] candidateRoutesB with
        | none => .ok st
        | some routeWithQuoteB =>
          if quoteCompFn routeType (quoteOf routeWithQuoteA + quoteOf routeWithQuoteB)
              st.bestQuote then
            .ok { bestQuote := quoteOf routeWithQuoteA + quoteOf routeWithQuoteB
                  bestSwap := [routeWithQuoteA, routeWithQuoteB] }
          else .ok st

/-- The inner (`j`) iteration of the 3-split loop (lines 556-596).  Unlike the
2-split loop, `candidateRoutesB = percentToSortedQuotes[percentB]!` is passed
to `findFirstRouteNotUsingUsedPools` with NO existence check (line 558), so a
missing bucket throws (`for ... of undefined`); the `percentC` bucket is
checked. -/
def split3InnerStep (routeType : TradeType) (sorted : Buckets)
    (quoteOf : RouteWithValidQuote → ℚ) (routeWithQuoteA : RouteWithValidQuote)
    (remainingPercent : Int) (st : BestState) (percentB : Int) :
    Except String BestState :=
  match lookupBucket sorted percentB with
  | none => .error "TypeError: missing percent bucket iterated in 3-split"
  | some candidateRoutesB =>
    match findFirstRouteNotUsingUsedPools [routeWithQuoteA.route] candidateRoutesB with
    | none => .ok st
    | some routeWithQuoteB =>
      match lookupBucket sorted (remainingPercent - percentB) with
      | none => .ok st
      | some candidateRoutesC =>
        match findFirstRouteNotUsingUsedPools
            [routeWithQuoteA.route, routeWithQuoteB.route] candidateRoutesC with
        | none => .ok st
        | some routeWithQuoteC =>
          if quoteCompFn routeType
              (quoteOf routeWithQuoteA + quoteOf routeWithQuoteB +
                quoteOf routeWithQuoteC)
              st.bestQuote then
            .ok { bestQuote := quoteOf routeWithQuoteA + quoteOf routeWithQuoteB +
                    quoteOf routeWithQuoteC
                  bestSwap := [routeWithQuoteA, routeWithQuoteB, routeWithQuoteC] }
          else .ok st

/-- The outer (`i`) iteration of the 3-split loop (lines 548-555): again an
unguarded `percentToSortedQuotes[percentA]![0]!` read. -/
def split3OuterStep (routeType : TradeType) (sorted : Buckets)
    (quoteOf : RouteWithValidQuote → ℚ) (st : BestState) (pa : Int × List Int) :
    Except String BestState :=
  match lookupBucket sorted pa.1 with
  | none => .error "TypeError: percent bucket missing in 3-split"
  | some bucketA =>
    match bucketA.head? with
    | none => .error "TypeError: percent bucket missing in 3-split"
    | some routeWithQuoteA =>
      pa.2.foldlM (split3InnerStep routeType sorted quoteOf routeWithQuoteA (100 - pa.1)) st

/-- The pairs `(percents[i], [percents[i+1], ...])` of the nested
`for i / for j = i+1` iteration. -/
def withSuccessors : List Int → List (Int × List Int)
  | [] => []
  | p :: rest => (p, rest) :: withSuccessors rest

/-- One pass of the `while (splits <= maxSplits)` body (lines 493-611):
the 2-split pass at `splits == 2`, the 3-split pass at `splits == 3` gated on
`bestSwap.length == 2`, and the `splits == 4` fatal error. -/
def splitStep (routeType : TradeType) (sorted : Buckets) (percents : List Int)
    (quoteOf : RouteWithValidQuote → ℚ) (st : BestState) (splits : Nat) :
    Except String BestState :=
  match (if splits == 2 then
          (percents.take ((percents.length + 1) / 2)).foldlM
            (split2Step routeType sorted quoteOf) st
        else .ok st) with
  | .error e => .error e
  | .ok st1 =>
    match (if splits == 3 && st1.bestSwap.length == 2 then
            (withSuccessors percents).foldlM (split3OuterStep routeType sorted quoteOf) st1
          else .ok st1) with
    | .error e => .error e
    | .ok st2 =>
      if splits == 4 then .error "Four splits is not supported" else .ok st2

/-- The values taken by `splits` in `while (splits <= maxSplits)` starting at
2: the list `[2, ..., maxSplits]`. -/
def splitsRange (maxSplits : Nat) : List Nat :=
  List.range' 2 (maxSplits - 1)

/-- The local `sum` helper of `getBestSwapRouteBy` (lines 613-619): start from
the first element and fold `add` over the rest.  (The source throws on an
empty list; it is only ever applied to the non-empty `bestSwap`.) -/
def sumCA (l : List ℚ) : ℚ :=
  match l with
  | [] => 0
  | h :: t => t.foldl (· + ·) h

/-- The `routeAmounts` record built per component (lines 641-652). -/
def toRouteAmount (rq : RouteWithValidQuote) : RouteAmount :=
  { route := rq.route
    amount := rq.amount
    quote := rq.quote
    quoteGasAdjusted := rq.quoteAdjustedForGas
    percentage := rq.percent
    estimatedGasUsed := rq.gasEstimate }

/-- Plan assembly (lines 613-664): sum quotes, gas-adjusted quotes and gas
estimates over `bestSwap`, and sort the route amounts by percentage
descending (`(a, b) => b.percentage - a.percentage`). -/
def assemblePlan (bestSwap : List RouteWithValidQuote) : SwapPlanRaw :=
  { quote := sumCA (bestSwap.map (fun rq => rq.quote))
    quoteGasAdjusted := sumCA (bestSwap.map (fun rq => rq.quoteAdjustedForGas))
    estimatedGasUsed := (bestSwap.map (fun rq => rq.gasEstimate)).foldl (· + ·) 0
    routeAmounts :=
      sortByComparator (fun a b => decide (b.percentage < a.percentage))
        (bestSwap.map toRouteAmount) }

/-- `getBestSwapRouteBy` (alpha-router.ts lines 413-665).  Returns
`.ok none` for the source's `undefined` (no 100% baseline), `.ok (some plan)`
for a found plan, and `.error` for a thrown `TypeError` / fatal error. -/
def getBestSwapRouteBy (routeType : TradeType) (percentToQuotes : Buckets)
    (percents : List Int) (quoteOf : RouteWithValidQuote → ℚ) (maxSplits : Nat) :
    Except String (Option SwapPlanRaw) :=
  match lookupBucket (sortBuckets routeType quoteOf percentToQuotes) 100 with
  | none => .ok none
  | some bucket100 =>
    match bucket100.head? with
    | none => .error "TypeError: empty 100 percent bucket"
    | some best0 =>
      match (splitsRange maxSplits).foldlM
          (splitStep routeType (sortBuckets routeType quoteOf percentToQuotes)
            percents quoteOf)
          { bestQuote := quoteOf best0, bestSwap := [best0] } with
      | .error e => .error e
      | .ok st => .ok (some (assemblePlan st.bestSwap))

/-- `getBestSwapRoute` (lines 311-411): bucket the valid quotes, then search
with `by = rq.quoteAdjustedForGas`.  Of the routing config only `maxSplits`
reaches the search. -/
def getBestSwapRoute (routeType : TradeType) (gasModel : GasModel)
    (percents : List Int) (routesWithQuotes : List (RouteSOR × List AmountQuote))
    (maxSplits : Nat) : Except String (Option SwapPlanRaw) :=
  getBestSwapRouteBy routeType
    (buildPercentToQuotes gasModel routeType percents routesWithQuotes)
    percents (fun rq => rq.quoteAdjustedForGas) maxSplits

/-- Whether some route has a valid (non-dropped) quote paired with percent
`k`. -/
def hasValidQuoteAt (percents : List Int)
    (routesWithQuotes : List (RouteSOR × List AmountQuote)) (k : Int) : Bool :=
  routesWithQuotes.any (fun rwq =>
    (percents.zip rwq.2).any (fun pq => pq.1 == k && isValidAmountQuote pq.2))

/-- Decidable form of the bucket invariant established by the bucketing loop:
every quote sits in the bucket keyed by its own `percent`. -/
def bucketConsistentB (bs : Buckets) : Bool :=
  bs.all (fun e => e.2.all (fun q => q.percent == e.1))

/-- `getAmountDistribution` (lines 667-681): for `i = 1 .. 100/step` emit
`percents[i-1] = i·step` and `amounts[i-1] = amount · (i·step)/100` (the
`Fraction` multiply is exact rational arithmetic).  The JS loop bound
`100 / distributionPercent` is float division; it equals the Nat division
used here whenever `distributionPercent` divides 100, the regime of the
claims. -/
def getAmountDistribution (amount : ℚ) (distributionPercent : Nat) :
    List Nat × List ℚ :=
  (((List.range (100 / distributionPercent)).map
      (fun i => (i + 1) * distributionPercent)),
   ((List.range (100 / distributionPercent)).map
      (fun i => amount * ((((i + 1) * distributionPercent : Nat) : ℚ) / 100))))

/-- The token the DFS advances to after crossing `curPool` from
`previousTokenOut` (lines 975-977). -/
def otherPoolToken (curPool : Pool) (previousTokenOut : Token) : Token :=
  if curPool.token0.equals previousTokenOut then curPool.token1 else curPool.token0

/-- The recursive `computeRoutes` closure of `computeAllRoutes`
(lines 942-991).  `fuel` is a structural-recursion device only: the semantic
depth guard is the source's `currentRoute.length > maxHops` check, and
`computeAllRoutes` supplies `maxHops + 2` fuel, which the guard keeps from
ever reaching 0. -/
def computeRoutesGo (tokenIn tokenOut : Token) (pools : List Pool) (maxHops : Nat)
    (fuel : Nat) (currentRoute : List Pool) (poolsUsed : List Bool)
    (pTokenOut : Option Token) : List RouteSOR :=
  match fuel with
  | 0 => []
  | fuel + 1 =>
    if currentRoute.length > maxHops then []
    else if currentRoute.getLast?.elim false (fun lastPool => lastPool.involvesToken tokenOut) then
      [{ pools := currentRoute, input := tokenIn, output := tokenOut }]
    else
      ((pools.enum.map (fun ip =>
        if poolsUsed.getD ip.1 false then []
        else
          let curPool := ip.2
          let previousTokenOut := pTokenOut.getD tokenIn
          if ! curPool.involvesToken previousTokenOut then []
          else
            computeRoutesGo tokenIn tokenOut pools maxHops fuel
              (currentRoute ++ [curPool]) (poolsUsed.set ip.1 true)
              (some (otherPoolToken curPool previousTokenOut)))).flatten)

/-- `computeAllRoutes` (lines 933-1001): DFS over the pool graph with a
used-pool bitset of size `pools.length`, starting from the empty route. -/
def computeAllRoutes (tokenIn tokenOut : Token) (pools : List Pool)
    (maxHops : Nat) : List RouteSOR :=
  computeRoutesGo tokenIn tokenOut pools maxHops (maxHops + 2) []
    (List.replicate pools.length false) none

/-- The pool path chains forward from token `t`: each pool involves the
running token, which then advances across that pool. -/
def chainFrom (t : Token) : List Pool → Bool
  | [] => true
  | p :: rest => p.involvesToken t && chainFrom (otherPoolToken p t) rest

/-- The token reached after crossing the whole path from `t`. -/
def chainEnd (t : Token) : List Pool → Token
  | [] => t
  | p :: rest => chainEnd (otherPoolToken p t) rest

/-- Two pools share a token (in the SDK's `equals` sense). -/
def sharesTokenB (p q : Pool) : Bool :=
  q.involvesToken p.token0 || q.involvesToken p.token1

/-- A subgraph token (`{ id, symbol }`, `id` the lowercase address). -/
structure SubgraphPoolToken where
  id : String
  symbol : String
deriving DecidableEq, Repr

/-- A subgraph pool.  `feeTier` and the TVL field are omitted: the embedded
slice-2 filter only reads the token ids/symbols, and the candidate list it
filters is taken already TVL-sorted, as in the source
(`subgraphPoolsSorted`). -/
structure SubgraphPool where
  id : String
  token0 : SubgraphPoolToken
  token1 : SubgraphPoolToken
deriving DecidableEq, Repr

/-- The `top2EthQuoteTokenPool` slice of `getPoolsToConsider`
(alpha-router.ts lines 754-773).  The EXACT_INPUT branch compares token ids
(addresses) against the weth address and `tokenOutAddress`; the EXACT_OUTPUT
branch compares token SYMBOLS against the weth ADDRESS and `tokenIn.symbol`,
exactly as written in the source. -/
def top2EthQuoteTokenPool (routeType : TradeType)
    (subgraphPoolsSorted : List SubgraphPool) (wethAddress : String)
    (tokenIn : Token) (tokenOutAddress : String) : List SubgraphPool :=
  (subgraphPoolsSorted.filter (fun subgraphPool =>
    match routeType with
    | .EXACT_INPUT =>
      (subgraphPool.token0.id == wethAddress && subgraphPool.token1.id == tokenOutAddress) ||
      (subgraphPool.token1.id == wethAddress && subgraphPool.token0.id == tokenOutAddress)
    | .EXACT_OUTPUT =>
      (subgraphPool.token0.symbol == wethAddress && subgraphPool.token1.symbol == tokenIn.symbol) ||
      (subgraphPool.token1.symbol == wethAddress && subgraphPool.token0.symbol == tokenIn.symbol))).take 2

/-- The slice 2 actually computed for an EXACT_OUT request: `routeExactOut`
invokes `getPoolsToConsider` with `TradeType.EXACT_INPUT` (alpha-router.ts
line 236), so the EXACT_INPUT branch of the filter runs. -/
def routeExactOutTop2EthQuoteTokenPool (subgraphPoolsSorted : List SubgraphPool)
    (wethAddress : String) (tokenIn : Token) (tokenOutAddress : String) :
    List SubgraphPool :=
  top2EthQuoteTokenPool .EXACT_INPUT subgraphPoolsSorted wethAddress tokenIn tokenOutAddress

/-- One `(success, gasUsed, returnData)` entry of the aggregator's response
(multicall provider, `src/providers/multicall2-provider`). -/
structure AggregateCallResult where
  success : Bool
  returnData : String
  gasUsed : Nat
deriving DecidableEq, Repr

/-- The provider's per-call `Result<TReturn>`: either a failed slot (fields
absent, raw return data kept) or a decoded result. -/
inductive MulticallResult (R : Type) where
  | failure (returnData : String)
  | ok (result : R)
deriving DecidableEq, Repr

/-- The result loop of `callSameFunctionOnContractWithMultipleParams`
(part_000 lines 154-182): a slot with `success == false` or hex return data
of length ≤ 2 (the literal `0x`) becomes a failed slot; every other slot is
decoded, one output entry per aggregate result, in order.  ABI decoding is
the abstract `decode`. -/
def processMulticallResults {R : Type} (decode : String → R)
    (aggregateResults : List AggregateCallResult) : List (MulticallResult R) :=
  aggregateResults.map (fun ar =>
    if ar.success = false ∨ ar.returnData.length ≤ 2 then .failure ar.returnData
    else .ok (decode ar.returnData))

/-- The calls submitted by `callSameFunctionOnContractWithMultipleParams`
(part_000 lines 131-142): one `(target, callData, gasLimit)` per function
param, in order; ABI encoding is the abstract `encodeFunctionData`. -/
def multicallCalls {P : Type} (address : String) (gasLimitPerCall : Nat)
    (encodeFunctionData : P → String) (functionParams : List P) :
    List (String × String × Nat) :=
  functionParams.map (fun functionParam =>
    (address, encodeFunctionData functionParam, gasLimitPerCall))

/-- Two routes share no pool: the intersection of their pool-address sets is
empty. -/
def RoutesDisjoint (r1 r2 : RouteSOR) : Prop :=
  ∀ p1 ∈ r1.pools, ∀ p2 ∈ r2.pools, Pool.getAddress p1 ≠ Pool.getAddress p2

/-- Pool-disjointness of two plan components. -/
def RouteAmountsDisjoint (a b : RouteAmount) : Prop :=
  RoutesDisjoint a.route b.route

/-- "At least as good" by the trade-type comparator: `≥` for EXACT_IN
(more output is better), `≤` for EXACT_OUT (less input is better). -/
def cmpGE (routeType : TradeType) (x y : ℚ) : Prop :=
  match routeType with
  | .EXACT_INPUT => y ≤ x
  | .EXACT_OUTPUT => x ≤ y

/-- Invariant of the split search state: the candidate list is non-empty and
pairwise pool-disjoint, `bestQuote` is the comparator-sum of the candidates,
and `bestQuote` never falls behind the 100% baseline. -/
structure SearchInv (routeType : TradeType) (quoteOf : RouteWithValidQuote → ℚ)
    (baseline : ℚ) (st : BestState) : Prop where
  nonempty : st.bestSwap ≠ []
  disjoint : st.bestSwap.Pairwise (fun a b => RoutesDisjoint a.route b.route)
  quoteSum : st.bestQuote = (st.bestSwap.map quoteOf).sum
  mono : cmpGE routeType st.bestQuote baseline

/-- The percentages of the search state sum to 100. -/
def PercSum100 (st : BestState) : Prop :=
  (st.bestSwap.map (fun q => q.percent)).sum = 100

/-- Propositional form of bucket consistency: every quote sits in the bucket
keyed by its own percent. -/
def BucketConsistent (bs : Buckets) : Prop :=
  ∀ p l, lookupBucket bs p = some l → ∀ q ∈ l, q.percent = p

/-- The 100% baseline quote of the search: the head of the sorted 100%
bucket. -/
def baselineRWVQ (routeType : TradeType) (percentToQuotes : Buckets)
    (quoteOf : RouteWithValidQuote → ℚ) : Option RouteWithValidQuote :=
  (lookupBucket (sortBuckets routeType quoteOf percentToQuotes) 100).bind List.head?

/-- Example token A (concrete inputs for witnesses). -/
def exTokenA : Token := { chainId := 1, address := "0xaaa", symbol := "AAA" }

/-- Example token B. -/
def exTokenB : Token := { chainId := 1, address := "0xbbb", symbol := "BBB" }

/-- Example token C. -/
def exTokenC : Token := { chainId := 1, address := "0xccc", symbol := "CCC" }

/-- Example pool A-B at fee 500. -/
def exPoolAB500 : Pool := { token0 := exTokenA, token1 := exTokenB, fee := 500 }

/-- Example pool A-B at fee 3000. -/
def exPoolAB3000 : Pool := { token0 := exTokenA, token1 := exTokenB, fee := 3000 }

/-- Example pool A-B at fee 10000. -/
def exPoolAB10000 : Pool := { token0 := exTokenA, token1 := exTokenB, fee := 10000 }

/-- Example pool A-C. -/
def exPoolAC500 : Pool := { token0 := exTokenA, token1 := exTokenC, fee := 500 }

/-- Example pool C-B. -/
def exPoolCB500 : Pool := { token0 := exTokenC, token1 := exTokenB, fee := 500 }

/-- Example pool B-C. -/
def exPoolBC3000 : Pool := { token0 := exTokenB, token1 := exTokenC, fee := 3000 }

/-- Example pool C-B at fee 10000. -/
def exPoolCB10000 : Pool := { token0 := exTokenC, token1 := exTokenB, fee := 10000 }

/-- Example single-pool route over `exPoolAB500`. -/
def exRoute1 : RouteSOR := { pools := [exPoolAB500], input := exTokenA, output := exTokenB }

/-- Example single-pool route over `exPoolAB3000`. -/
def exRoute2 : RouteSOR := { pools := [exPoolAB3000], input := exTokenA, output := exTokenB }

/-- Example single-pool route over `exPoolAB10000`. -/
def exRoute3 : RouteSOR := { pools := [exPoolAB10000], input := exTokenA, output := exTokenB }

/-- Example valid 100% quote: baseline of quality 10. -/
def exQ100 : RouteWithValidQuote :=
  { route := exRoute1, amount := 1, quote := 10, quoteAdjustedForGas := 10,
    gasEstimate := 100, percent := 100 }

/-- Example 50% quote on `exRoute2`, quality 6. -/
def exQA : RouteWithValidQuote :=
  { route := exRoute2, amount := 1/2, quote := 6, quoteAdjustedForGas := 6,
    gasEstimate := 100, percent := 50 }

/-- Example 50% quote on `exRoute3`, quality 6. -/
def exQB : RouteWithValidQuote :=
  { route := exRoute3, amount := 1/2, quote := 6, quoteAdjustedForGas := 6,
    gasEstimate := 100, percent := 50 }

/-- Example bucket map where a 50/50 split (12) beats the 100% baseline
(10). -/
def exBuckets : Buckets := [(50, [exQA, exQB]), (100, [exQ100])]

/-- Example percents for a two-bucket search. -/
def exPercents : List Int := [50, 100]

/-- Example constant gas model: every route prices gas at 1 quote-token
unit. -/
def exGasModel : GasModel := fun _ _ => 1

/-- Example invalid amount quote (all optional fields absent). -/
def exAmountQuoteInvalid : AmountQuote :=
  { amount := 1/2, quote := none, sqrtPriceX96AfterList := none,
    initializedTicksCrossedList := none, gasEstimate := none }

/-- Example valid 100% amount quote. -/
def exAmountQuoteValid100 : AmountQuote :=
  { amount := 1, quote := some 10, sqrtPriceX96AfterList := some [],
    initializedTicksCrossedList := some [], gasEstimate := some 100 }

/-- Example valid 50% amount quote. -/
def exAQ50 : AmountQuote :=
  { amount := 1/2, quote := some 4, sqrtPriceX96AfterList := some [],
    initializedTicksCrossedList := some [], gasEstimate := some 100 }

/-- Example valid 75% amount quote. -/
def exAQ75 : AmountQuote :=
  { amount := 3/4, quote := some 6, sqrtPriceX96AfterList := some [],
    initializedTicksCrossedList := some [], gasEstimate := some 100 }

/-- Failing input for the invalid-quote-resilience claim: the 50% quote of
the only route is invalid, so bucket 50 is never created, while the 100%
quote is valid. -/
def exRoutesWithQuotesC4 : List (RouteSOR × List AmountQuote) :=
  [(exRoute1, [exAmountQuoteInvalid, exAmountQuoteValid100])]

/-- Example four-step percents. -/
def exPercents4 : List Int := [25, 50, 75, 100]

/-- Failing input for the null-vs-plan claim: buckets 50, 75, 100 exist but
bucket 25 does not. -/
def exRoutesWithQuotesC3 : List (RouteSOR × List AmountQuote) :=
  [(exRoute1, [exAmountQuoteInvalid, exAQ50, exAQ75, exAmountQuoteValid100])]

/-- Example subgraph token for wrapped native. -/
def exSgWeth : SubgraphPoolToken := { id := "0xweth", symbol := "WETH" }

/-- Example subgraph token for the output token. -/
def exSgOut : SubgraphPoolToken := { id := "0xout", symbol := "OUT" }

/-- Example subgraph token for the input token. -/
def exSgIn : SubgraphPoolToken := { id := "0xin", symbol := "WBTC" }

/-- Example subgraph pool pairing weth with the output token. -/
def exSpWethOut : SubgraphPool := { id := "0xpool1", token0 := exSgWeth, token1 := exSgOut }

/-- Example subgraph pool pairing weth with the input token. -/
def exSpWethIn : SubgraphPool := { id := "0xpool2", token0 := exSgWeth, token1 := exSgIn }

/-- Example input token matching `exSgIn`. -/
def exTokenInWBTC : Token := { chainId := 1, address := "0xin", symbol := "WBTC" }

/-- Example aggregate result: `success` but empty `0x` return data. -/
def exAggEmpty : AggregateCallResult := { success := true, returnData := "0x", gasUsed := 5 }

/-- Example aggregate result: failed call. -/
def exAggFailed : AggregateCallResult := { success := false, returnData := "0xdead", gasUsed := 5 }

/-- Example aggregate result: successful decodable call. -/
def exAggOk : AggregateCallResult := { success := true, returnData := "0xdeadbeef", gasUsed := 7 }

/-! Helper lemmas and claim theorems. -/

/-- C9: for `distributionPercent` dividing 100 and `K = 100/step`, the
distributor returns exactly K percents `i·step` and K exact-rational amounts
`amount·(i·step)/100`, the last amount being the full input amount. -/
theorem getAmountDistribution_spec (amount : ℚ) (distributionPercent : Nat)
    (hdvd : distributionPercent ∣ 100) :
    (getAmountDistribution amount distributionPercent).1.length = 100 / distributionPercent ∧
    (getAmountDistribution amount distributionPercent).2.length = 100 / distributionPercent ∧
    (∀ i, i < 100 / distributionPercent →
      (getAmountDistribution amount distributionPercent).1[i]? =
        some ((i + 1) * distributionPercent) ∧
      (getAmountDistribution amount distributionPercent).2[i]? =
        some (amount * ((((i + 1) * distributionPercent : Nat) : ℚ) / 100))) ∧
    (getAmountDistribution amount distributionPercent).2.getLast? = some amount := by
  have hpos : 0 < distributionPercent := by
    rcases Nat.eq_zero_or_pos distributionPercent with h | h
    · subst h
      exact absurd (Nat.eq_zero_of_zero_dvd hdvd) (by norm_num)
    · exact h
  have hK : 1 ≤ 100 / distributionPercent :=
    (Nat.one_le_div_iff hpos).mpr (Nat.le_of_dvd (by norm_num) hdvd)
  refine ⟨by simp [getAmountDistribution], by simp [getAmountDistribution], ?_, ?_⟩
  · intro i hi
    constructor
    · simp [getAmountDistribution, List.getElem?_map, List.getElem?_range hi]
    · simp [getAmountDistribution, List.getElem?_map, List.getElem?_range hi]
  · have hlen : (getAmountDistribution amount distributionPercent).2.length =
        100 / distributionPercent := by simp [getAmountDistribution]
    rw [List.getLast?_eq_getElem?, hlen]
    have hilt : 100 / distributionPercent - 1 < 100 / distributionPercent := by omega
    have hstep : (100 / distributionPercent - 1 + 1) * distributionPercent = 100 := by
      have h1 : 100 / distributionPercent - 1 + 1 = 100 / distributionPercent := by omega
      rw [h1]
      exact Nat.div_mul_cancel hdvd
    simp only [getAmountDistribution, List.getElem?_map, List.getElem?_range hilt,
      Option.map_some']
    rw [hstep]
    norm_num

/-- Witness for the distributor theorem at `amount = 3/2`, `step = 50`. -/
theorem getAmountDistribution_spec_witness :
    (getAmountDistribution (3/2) 50).1.length = 100 / 50 ∧
    (getAmountDistribution (3/2) 50).2[1]? =
      some ((3/2) * ((((1 + 1) * 50 : Nat) : ℚ) / 100)) ∧
    (getAmountDistribution (3/2) 50).2.getLast? = some (3/2) := by
  have h := getAmountDistribution_spec (3/2) 50 (by decide)
  exact ⟨h.1, (h.2.2.1 1 (by decide)).2, h.2.2.2⟩

/-- C10: the multicall result loop emits exactly one entry per aggregate
result (hence one per submitted call), in order; a slot with
`success == false` or return data `0x` (hex length ≤ 2) becomes a failed
slot, and every other slot is decoded successfully regardless of failures
elsewhere in the batch. -/
theorem processMulticallResults_spec {R P : Type} (decode : String → R)
    (address : String) (gasLimitPerCall : Nat) (encodeFunctionData : P → String)
    (functionParams : List P) (aggregateResults : List AggregateCallResult)
    (i : Nat) (hlen : aggregateResults.length = functionParams.length)
    (hi : i < aggregateResults.length) :
    (processMulticallResults decode aggregateResults).length =
      (multicallCalls address gasLimitPerCall encodeFunctionData functionParams).length ∧
    ((aggregateResults[i].success = false ∨ aggregateResults[i].returnData.length ≤ 2) →
      (processMulticallResults decode aggregateResults)[i]? =
        some (.failure aggregateResults[i].returnData)) ∧
    (aggregateResults[i].success = true → 2 < aggregateResults[i].returnData.length →
      (processMulticallResults decode aggregateResults)[i]? =
        some (.ok (decode aggregateResults[i].returnData))) := by
  refine ⟨by simp [processMulticallResults, multicallCalls, hlen], ?_, ?_⟩
  · intro hfail
    simp only [processMulticallResults, List.getElem?_map, List.getElem?_eq_getElem hi,
      Option.map_some']
    rw [if_pos hfail]
  · intro hsucc hlong
    simp only [processMulticallResults, List.getElem?_map, List.getElem?_eq_getElem hi,
      Option.map_some']
    rw [if_neg]
    rintro (h | h)
    · rw [hsucc] at h
      cases h
    · omega

/-- Witness for the multicall theorem: a batch of an empty-data slot and a
successful slot; the first is failed, the second decoded. -/
theorem processMulticallResults_spec_witness :
    (processMulticallResults String.length [exAggEmpty, exAggOk])[0]? =
      some (MulticallResult.failure "0x") ∧
    (processMulticallResults String.length [exAggEmpty, exAggOk])[1]? =
      some (MulticallResult.ok 10) := by
  have h0 := processMulticallResults_spec String.length "0xq" 1000000
    (fun _ : Nat => "0xcd") [1, 2] [exAggEmpty, exAggOk] 0 (by decide) (by decide)
  have h1 := processMulticallResults_spec String.length "0xq" 1000000
    (fun _ : Nat => "0xcd") [1, 2] [exAggEmpty, exAggOk] 1 (by decide) (by decide)
  constructor
  · simpa using h0.2.1 (by decide)
  · simpa using h1.2.2 (by decide) (by decide)

/-- Amended C5: slice 2 for EXACT_OUT requests.  `routeExactOut` passes
`TradeType.EXACT_INPUT` to pool selection, so both request directions get up
to 2 pools pairing the wrapped-native ADDRESS with the tokenOut ADDRESS. -/
theorem routeExactOutTop2_spec (subgraphPoolsSorted : List SubgraphPool)
    (wethAddress : String) (tokenIn : Token) (tokenOutAddress : String) :
    (routeExactOutTop2EthQuoteTokenPool subgraphPoolsSorted wethAddress tokenIn
        tokenOutAddress).length ≤ 2 ∧
    routeExactOutTop2EthQuoteTokenPool subgraphPoolsSorted wethAddress tokenIn
        tokenOutAddress =
      top2EthQuoteTokenPool .EXACT_INPUT subgraphPoolsSorted wethAddress tokenIn
        tokenOutAddress ∧
    ∀ sp ∈ routeExactOutTop2EthQuoteTokenPool subgraphPoolsSorted wethAddress tokenIn
        tokenOutAddress,
      (sp.token0.id = wethAddress ∧ sp.token1.id = tokenOutAddress) ∨
      (sp.token1.id = wethAddress ∧ sp.token0.id = tokenOutAddress) := by
  refine ⟨?_, rfl, ?_⟩
  · unfold routeExactOutTop2EthQuoteTokenPool top2EthQuoteTokenPool
    simp [List.length_take]
  · intro sp hsp
    unfold routeExactOutTop2EthQuoteTokenPool top2EthQuoteTokenPool at hsp
    have hmem := List.of_mem_filter (List.mem_of_mem_take hsp)
    simp only [Bool.or_eq_true, Bool.and_eq_true, beq_iff_eq] at hmem
    exact hmem

/-- Witness for the amended slice-2 theorem at a concrete universe: the
selected pool pairs weth with tokenOut. -/
theorem routeExactOutTop2_spec_witness :
    (exSpWethOut.token0.id = "0xweth" ∧ exSpWethOut.token1.id = "0xout") ∨
    (exSpWethOut.token1.id = "0xweth" ∧ exSpWethOut.token0.id = "0xout") :=
  (routeExactOutTop2_spec [exSpWethOut, exSpWethIn] "0xweth" exTokenInWBTC "0xout").2.2
    exSpWethOut (by decide)

/-- Counterexample to C5 as stated: for an EXACT_OUT request over a universe
containing both a weth-tokenOut and a weth-tokenIn pool, the computed slice
is the weth-tokenOut pool - NOT a pool pairing weth with tokenIn - and the
(unreachable) EXACT_OUTPUT branch, which compares symbols against the weth
address, selects nothing at all. -/
theorem routeExactOutTop2_counterexample :
    routeExactOutTop2EthQuoteTokenPool [exSpWethOut, exSpWethIn] "0xweth"
        exTokenInWBTC "0xout" = [exSpWethOut] ∧
    exSpWethOut.token0.id ≠ exTokenInWBTC.address ∧
    exSpWethOut.token1.id ≠ exTokenInWBTC.address ∧
    top2EthQuoteTokenPool .EXACT_OUTPUT [exSpWethOut, exSpWethIn] "0xweth"
        exTokenInWBTC "0xout" = [] := by
  decide

/-- Appending a pool extends a valid chain iff the pool involves the chain's
current end token. -/
theorem chainFrom_append (t : Token) (l : List Pool) (p : Pool) :
    chainFrom t (l ++ [p]) = (chainFrom t l && p.involvesToken (chainEnd t l)) := by
  induction l generalizing t with
  | nil => simp [chainFrom, chainEnd]
  | cons q rest ih => simp [chainFrom, chainEnd, ih, Bool.and_assoc]

/-- The chain end after appending a pool. -/
theorem chainEnd_append (t : Token) (l : List Pool) (p : Pool) :
    chainEnd t (l ++ [p]) = otherPoolToken p (chainEnd t l) := by
  induction l generalizing t with
  | nil => simp [chainEnd]
  | cons q rest ih => simp [chainEnd, ih]

/-- A valid chain has consecutive pools sharing a token. -/
theorem chainFrom_chain' (t : Token) (l : List Pool) (h : chainFrom t l = true) :
    l.Chain' (fun p q => sharesTokenB p q = true) := by
  induction l generalizing t with
  | nil => simp
  | cons p rest ih =>
    match rest with
    | [] => simp
    | q :: rest2 =>
      rw [show chainFrom t (p :: q :: rest2) =
            (p.involvesToken t && chainFrom (otherPoolToken p t) (q :: rest2)) from rfl,
          Bool.and_eq_true] at h
      rw [List.chain'_cons]
      refine ⟨?_, ih (otherPoolToken p t) h.2⟩
      have hq : q.involvesToken (otherPoolToken p t) = true := by
        have h2 := h.2
        rw [show chainFrom (otherPoolToken p t) (q :: rest2) =
              (q.involvesToken (otherPoolToken p t) &&
                chainFrom (otherPoolToken q (otherPoolToken p t)) rest2) from rfl,
            Bool.and_eq_true] at h2
        exact h2.1
      unfold sharesTokenB
      unfold otherPoolToken at hq
      by_cases hc : p.token0.equals t = true
      · rw [if_pos hc] at hq
        simp [hq]
      · rw [if_neg hc] at hq
        simp [hq]

/-- Soundness of the DFS worker: from a state whose partial route chains from
`tokenIn` to the pending token, has no non-final pool touching `tokenOut`,
and whose members are all flagged used, every emitted route is well-formed. -/
theorem computeRoutesGo_sound (tokenIn tokenOut : Token) (pools : List Pool)
    (maxHops : Nat) :
    ∀ (fuel : Nat) (currentRoute : List Pool) (poolsUsed : List Bool)
      (pTokenOut : Option Token),
      poolsUsed.length = pools.length →
      chainFrom tokenIn currentRoute = true →
      chainEnd tokenIn currentRoute = pTokenOut.getD tokenIn →
      currentRoute.dropLast.all (fun p => ! p.involvesToken tokenOut) = true →
      (∀ p ∈ currentRoute, ∃ j, pools[j]? = some p ∧ poolsUsed.getD j false = true) →
      (pools.Nodup → currentRoute.Nodup) →
      ∀ r ∈ computeRoutesGo tokenIn tokenOut pools maxHops fuel currentRoute
          poolsUsed pTokenOut,
        r.input = tokenIn ∧ r.output = tokenOut ∧
        1 ≤ r.pools.length ∧ r.pools.length ≤ maxHops ∧
        chainFrom tokenIn r.pools = true ∧
        r.pools.getLast?.elim false (fun p => p.involvesToken tokenOut) = true ∧
        r.pools.dropLast.all (fun p => ! p.involvesToken tokenOut) = true ∧
        (pools.Nodup → r.pools.Nodup) := by
  intro fuel
  induction fuel with
  | zero =>
    intro currentRoute poolsUsed pTokenOut _ _ _ _ _ _ r hr
    simp [computeRoutesGo] at hr
  | succ fuel ih =>
    intro currentRoute poolsUsed pTokenOut hlen hchain hend hmid hused hnd r hr
    rw [computeRoutesGo] at hr
    by_cases hhops : currentRoute.length > maxHops
    · rw [if_pos hhops] at hr
      simp at hr
    · rw [if_neg hhops] at hr
      by_cases hlast : currentRoute.getLast?.elim false
          (fun lastPool => lastPool.involvesToken tokenOut) = true
      · rw [if_pos hlast] at hr
        have hr' : r = { pools := currentRoute, input := tokenIn, output := tokenOut } := by
          simpa using hr
        subst hr'
        have hne : currentRoute ≠ [] := by
          intro hnil
          rw [hnil] at hlast
          simp [Option.elim] at hlast
        refine ⟨rfl, rfl, ?_, ?_, hchain, hlast, hmid, hnd⟩
        · show 1 ≤ currentRoute.length
          have := List.length_pos.mpr hne
          omega
        · show currentRoute.length ≤ maxHops
          omega
      · rw [if_neg hlast] at hr
        rw [List.mem_flatten] at hr
        obtain ⟨branch, hbranch, hrbranch⟩ := hr
        rw [List.mem_map] at hbranch
        obtain ⟨ip, hip, hbeq⟩ := hbranch
        subst hbeq
        by_cases hu : poolsUsed.getD ip.1 false = true
        · rw [if_pos hu] at hrbranch
          simp at hrbranch
        · rw [if_neg hu] at hrbranch
          by_cases hinv : (! ip.2.involvesToken (pTokenOut.getD tokenIn)) = true
          · rw [if_pos hinv] at hrbranch
            simp at hrbranch
          · rw [if_neg hinv] at hrbranch
            have hinv' : ip.2.involvesToken (pTokenOut.getD tokenIn) = true := by
              simpa using hinv
            have hienum := List.mem_enum hip
            have hilt : ip.1 < pools.length := hienum.1
            have hieq : pools[ip.1]? = some ip.2 := by
              rw [List.getElem?_eq_getElem hilt]
              exact congrArg some hienum.2.symm
            have hallclean : currentRoute.all (fun p => ! p.involvesToken tokenOut) = true := by
              match currentRoute, hmid, hlast with
              | [], _, _ => simp
              | c :: cs, hmid, hlast =>
                have hne : c :: cs ≠ ([] : List Pool) := by simp
                conv_lhs => rw [← List.dropLast_concat_getLast hne]
                rw [List.all_append]
                refine (Bool.and_eq_true _ _).mpr ⟨hmid, ?_⟩
                simp only [List.all_cons, List.all_nil, Bool.and_true]
                rw [List.getLast?_eq_getLast _ hne] at hlast
                simp only [Option.elim] at hlast
                simpa using hlast
            refine ih (currentRoute ++ [ip.2]) (poolsUsed.set ip.1 true)
              (some (otherPoolToken ip.2 (pTokenOut.getD tokenIn))) ?_ ?_ ?_ ?_ ?_ ?_ r hrbranch
            · rw [List.length_set]
              exact hlen
            · rw [chainFrom_append, hchain, hend]
              simpa using hinv'
            · rw [chainEnd_append, hend]
              simp
            · rw [List.dropLast_concat]
              exact hallclean
            · intro x hx
              rw [List.mem_append] at hx
              rcases hx with hx | hx
              · obtain ⟨j, hj1, hj2⟩ := hused x hx
                refine ⟨j, hj1, ?_⟩
                rw [List.getD_eq_getElem?_getD, List.getElem?_set]
                rw [List.getD_eq_getElem?_getD] at hj2
                by_cases hji : ip.1 = j
                · subst hji
                  rw [if_pos rfl, if_pos (by omega)]
                  rfl
                · rw [if_neg hji]
                  exact hj2
              · have hx' : x = ip.2 := by simpa using hx
                subst hx'
                refine ⟨ip.1, hieq, ?_⟩
                rw [List.getD_eq_getElem?_getD, List.getElem?_set, if_pos rfl,
                  if_pos (by omega)]
                rfl
            · intro hndp
              rw [List.nodup_append]
              refine ⟨hnd hndp, by simp, ?_⟩
              intro x hx hx2
              have hx' : x = ip.2 := by simpa using hx2
              obtain ⟨j, hj1, hj2⟩ := hused x hx
              have hij : ip.1 = j :=
                List.getElem?_inj hilt hndp (hieq.trans (hx' ▸ hj1).symm)
              subst hij
              exact hu hj2

/-- C6: every route emitted by `computeAllRoutes` over a duplicate-free pool
list is well-formed: between 1 and `maxHops` pools, the chain of token
endpoints starts at `tokenIn` (so the first pool involves `tokenIn`),
consecutive pools share a token, the final pool involves `tokenOut`, and no
pool repeats. -/
theorem computeAllRoutes_wellFormed (tokenIn tokenOut : Token) (pools : List Pool)
    (maxHops : Nat) (hnd : pools.Nodup) (r : RouteSOR)
    (hr : r ∈ computeAllRoutes tokenIn tokenOut pools maxHops) :
    r.input = tokenIn ∧ r.output = tokenOut ∧
    1 ≤ r.pools.length ∧ r.pools.length ≤ maxHops ∧
    chainFrom tokenIn r.pools = true ∧
    (∃ p0, r.pools.head? = some p0 ∧ p0.involvesToken tokenIn = true) ∧
    r.pools.Chain' (fun p q => sharesTokenB p q = true) ∧
    (∃ pl, r.pools.getLast? = some pl ∧ pl.involvesToken tokenOut = true) ∧
    r.pools.Nodup := by
  have h := computeRoutesGo_sound tokenIn tokenOut pools maxHops (maxHops + 2) []
    (List.replicate pools.length false) none (by simp) (by simp [chainFrom])
    (by simp [chainEnd]) (by simp) (by simp) (by simp) r hr
  obtain ⟨h1, h2, h3, h4, h5, h6, h7, h8⟩ := h
  refine ⟨h1, h2, h3, h4, h5, ?_, chainFrom_chain' tokenIn r.pools h5, ?_, h8 hnd⟩
  · match hp : r.pools with
    | [] => rw [hp] at h3; simp at h3
    | p0 :: rest =>
      rw [hp] at h5
      rw [show chainFrom tokenIn (p0 :: rest) =
            (p0.involvesToken tokenIn && chainFrom (otherPoolToken p0 tokenIn) rest) from rfl,
          Bool.and_eq_true] at h5
      exact ⟨p0, rfl, h5.1⟩
  · have hne : r.pools ≠ [] := by
      intro hnil
      rw [hnil] at h3
      simp at h3
    have hgl := List.getLast?_eq_getLast r.pools hne
    rw [hgl] at h6
    simp only [Option.elim] at h6
    exact ⟨r.pools.getLast hne, hgl, h6⟩

/-- Witness for the route well-formedness theorem on a concrete two-pool
chain A-C, C-B. -/
theorem computeAllRoutes_wellFormed_witness :
    chainFrom exTokenA [exPoolAC500, exPoolCB500] = true ∧
    List.Chain' (fun p q => sharesTokenB p q = true) [exPoolAC500, exPoolCB500] ∧
    ([exPoolAC500, exPoolCB500] : List Pool).Nodup ∧
    ([exPoolAC500, exPoolCB500] : List Pool).length ≤ 3 := by
  have h := computeAllRoutes_wellFormed exTokenA exTokenB [exPoolAC500, exPoolCB500] 3
    (by decide)
    { pools := [exPoolAC500, exPoolCB500], input := exTokenA, output := exTokenB }
    (by decide)
  exact ⟨h.2.2.2.2.1, h.2.2.2.2.2.2.1, h.2.2.2.2.2.2.2.2, h.2.2.2.1⟩

/-- Amended C7: the enumerator early-terminates on every visit to
`tokenOut` - in every emitted route no non-final pool involves `tokenOut`
(the DFS emits and returns as soon as the last pushed pool involves
`tokenOut`, so it never extends past it). -/
theorem computeAllRoutes_no_mid_visit (tokenIn tokenOut : Token) (pools : List Pool)
    (maxHops : Nat) (r : RouteSOR)
    (hr : r ∈ computeAllRoutes tokenIn tokenOut pools maxHops) :
    r.pools.dropLast.all (fun p => ! p.involvesToken tokenOut) = true :=
  (computeRoutesGo_sound tokenIn tokenOut pools maxHops (maxHops + 2) []
    (List.replicate pools.length false) none (by simp) (by simp [chainFrom])
    (by simp [chainEnd]) (by simp) (by simp) (by simp) r hr).2.2.2.2.2.2.1

/-- Witness for the no-mid-visit theorem on the concrete A-C, C-B chain. -/
theorem computeAllRoutes_no_mid_visit_witness :
    ([exPoolAC500, exPoolCB500] : List Pool).dropLast.all
      (fun p => ! p.involvesToken exTokenB) = true :=
  computeAllRoutes_no_mid_visit exTokenA exTokenB [exPoolAC500, exPoolCB500] 3
    { pools := [exPoolAC500, exPoolCB500], input := exTokenA, output := exTokenB }
    (by decide)

/-- Counterexample to C7 as stated: with pools A-B, B-C, C-B (tokenIn A,
tokenOut B) the continuation A-B, B-C, C-B is a valid chain within
`maxHops = 3` whose final pool independently contains `tokenOut`, yet the
enumerator emits only the truncated single-pool route A-B: intermediate
visits to `tokenOut` DO early-terminate. -/
theorem computeAllRoutes_truncates_at_tokenOut :
    computeAllRoutes exTokenA exTokenB [exPoolAB500, exPoolBC3000, exPoolCB10000] 3 =
      [{ pools := [exPoolAB500], input := exTokenA, output := exTokenB }] ∧
    chainFrom exTokenA [exPoolAB500, exPoolBC3000, exPoolCB10000] = true ∧
    exPoolCB10000.involvesToken exTokenB = true := by
  decide

/-- Inserting with `insertBy` permutes to consing. -/
theorem insertBy_perm {α : Type} (before : α → α → Bool) (a : α) (l : List α) :
    (insertBy before a l).Perm (a :: l) := by
  induction l with
  | nil => simp [insertBy]
  | cons b bs ih =>
    rw [insertBy]
    by_cases hc : before a b = true
    · rw [if_pos hc]
    · rw [if_neg hc]
      exact (ih.cons b).trans (List.Perm.swap a b bs)

/-- The insertion fold permutes to appending. -/
theorem foldl_insertBy_perm {α : Type} (before : α → α → Bool) :
    ∀ (l acc : List α),
      (List.foldl (fun acc a => insertBy before a acc) acc l).Perm (acc ++ l) := by
  intro l
  induction l with
  | nil => intro acc; simp
  | cons x xs ih =>
    intro acc
    have h1 := ih (insertBy before x acc)
    have h2 : (insertBy before x acc ++ xs).Perm ((x :: acc) ++ xs) :=
      (insertBy_perm before x acc).append_right xs
    have h3 : ((x :: acc) ++ xs).Perm (acc ++ x :: xs) := by
      have hm : (acc ++ x :: xs).Perm (x :: (acc ++ xs)) := List.perm_middle
      simpa using hm.symm
    exact (h1.trans h2).trans h3

/-- The embedded JS sort is a permutation. -/
theorem sortByComparator_perm {α : Type} (before : α → α → Bool) (l : List α) :
    (sortByComparator before l).Perm l := by
  simpa [sortByComparator] using foldl_insertBy_perm before l []

/-- Left fold of addition from a seed. -/
theorem foldl_add_eq_sum {M : Type} [AddCommMonoid M] (l : List M) (a : M) :
    l.foldl (· + ·) a = a + l.sum := by
  induction l generalizing a with
  | nil => simp
  | cons x xs ih => simp [ih, add_assoc]

/-- The source's head-seeded `sum` helper agrees with `List.sum`. -/
theorem sumCA_eq_sum (l : List ℚ) : sumCA l = l.sum := by
  match l with
  | [] => rfl
  | h :: t => simp [sumCA, foldl_add_eq_sum]

/-- A head given by `head?` is a member. -/
theorem head?_mem {α : Type} {l : List α} {a : α} (h : l.head? = some a) : a ∈ l := by
  cases l with
  | nil => cases h
  | cons x xs =>
    rw [List.head?_cons, Option.some.injEq] at h
    subst h
    exact List.mem_cons_self _ _

/-- Postcondition of `findFirstRouteNotUsingUsedPools`: a found quote is a
candidate whose route is pool-disjoint from every used route. -/
theorem findFirst_spec (usedRoutes : List RouteSOR)
    (candidateRouteQuotes : List RouteWithValidQuote) (rq : RouteWithValidQuote)
    (h : findFirstRouteNotUsingUsedPools usedRoutes candidateRouteQuotes = some rq) :
    rq ∈ candidateRouteQuotes ∧ ∀ r ∈ usedRoutes, RoutesDisjoint r rq.route := by
  unfold findFirstRouteNotUsingUsedPools at h
  refine ⟨List.mem_of_find?_eq_some h, ?_⟩
  have hp := List.find?_some h
  have hp2 : ∀ pool ∈ rq.route.pools,
      (((usedRoutes.map (fun r => r.pools)).flatten).map Pool.getAddress).contains
        (Pool.getAddress pool) = false := by
    intro pool hpool
    have hany : rq.route.pools.any (fun pool =>
        (((usedRoutes.map (fun r => r.pools)).flatten).map Pool.getAddress).contains
          (Pool.getAddress pool)) = false := by
      simpa using hp
    rw [List.any_eq_false] at hany
    simpa using hany pool hpool
  intro r hr p1 hp1 p2 hpmem heq
  have h2 := hp2 p2 hpmem
  have hmem : Pool.getAddress p2 ∈
      ((usedRoutes.map (fun r => r.pools)).flatten).map Pool.getAddress := by
    rw [← heq]
    refine List.mem_map_of_mem Pool.getAddress ?_
    rw [List.mem_flatten]
    exact ⟨r.pools, List.mem_map_of_mem (fun r => r.pools) hr, hp1⟩
  have h3 : (((usedRoutes.map (fun r => r.pools)).flatten).map Pool.getAddress).contains
      (Pool.getAddress p2) = true := List.elem_iff.mpr hmem
  rw [h2] at h3
  cases h3

/-- Sorting the buckets acts valuewise under lookup. -/
theorem lookupBucket_sortBuckets (routeType : TradeType)
    (quoteOf : RouteWithValidQuote → ℚ) (bs : Buckets) (p : Int) :
    lookupBucket (sortBuckets routeType quoteOf bs) p =
      (lookupBucket bs p).map (sortByComparator (bucketComparator routeType quoteOf)) := by
  induction bs with
  | nil => rfl
  | cons e rest ih =>
    rcases e with ⟨k, v⟩
    simp only [sortBuckets, List.map_cons, lookupBucket, List.find?_cons]
    by_cases hc : (k == p) = true
    · simp [hc]
    · simp only [hc]
      simpa [sortBuckets, lookupBucket] using ih

/-- The decidable bucket-consistency check implies the propositional one. -/
theorem bucketConsistent_of_B (bs : Buckets) (h : bucketConsistentB bs = true) :
    BucketConsistent bs := by
  intro p l hl q hq
  unfold lookupBucket at hl
  match hf : bs.find? (fun e => e.1 == p) with
  | none => rw [hf] at hl; cases hl
  | some e =>
    rw [hf] at hl
    simp only [Option.map_some', Option.some.injEq] at hl
    have hkey := List.find?_some hf
    have hmem := List.mem_of_find?_eq_some hf
    unfold bucketConsistentB at h
    rw [List.all_eq_true] at h
    have he := h e hmem
    rw [List.all_eq_true] at he
    have hq2 : q ∈ e.2 := by rw [hl]; exact hq
    have hq3 := he q hq2
    have hqp : q.percent = e.1 := by simpa using hq3
    have hkp : e.1 = p := by simpa using hkey
    rw [hqp, hkp]

/-- Bucket consistency survives per-bucket sorting. -/
theorem bucketConsistent_sortBuckets (routeType : TradeType)
    (quoteOf : RouteWithValidQuote → ℚ) (bs : Buckets)
    (h : BucketConsistent bs) :
    BucketConsistent (sortBuckets routeType quoteOf bs) := by
  intro p l hl q hq
  rw [lookupBucket_sortBuckets] at hl
  match hb : lookupBucket bs p with
  | none => rw [hb] at hl; cases hl
  | some l0 =>
    rw [hb] at hl
    simp only [Option.map_some', Option.some.injEq] at hl
    have hperm := sortByComparator_perm (bucketComparator routeType quoteOf) l0
    have hq0 : q ∈ l0 := by
      rw [← hl] at hq
      exact hperm.mem_iff.mp hq
    exact h p l0 hb q hq0

/-- Invariant preservation through an error-propagating left monadic fold. -/
theorem foldlM_except_preserve {σ α ε : Type} (f : σ → α → Except ε σ)
    (P : σ → Prop) (hstep : ∀ s a s', f s a = .ok s' → P s → P s') :
    ∀ (l : List α) (s s' : σ), l.foldlM f s = .ok s' → P s → P s' := by
  intro l
  induction l with
  | nil =>
    intro s s' h hp
    simp only [List.foldlM_nil] at h
    have h2 : (Except.ok s : Except ε σ) = .ok s' := h
    cases h2
    exact hp
  | cons a as ih =>
    intro s s' h hp
    rw [List.foldlM_cons] at h
    match hf : f s a with
    | .error e =>
      rw [hf] at h
      have h2 : (Except.error e : Except ε σ) = .ok s' := h
      cases h2
    | .ok s1 =>
      rw [hf] at h
      have h2 : as.foldlM f s1 = .ok s' := h
      exact ih s1 s' h2 (hstep s a s1 hf hp)

/-- The trade-type "at least as good" relation is reflexive. -/
theorem cmpGE_refl (routeType : TradeType) (x : ℚ) : cmpGE routeType x x := by
  cases routeType <;> simp [cmpGE]

/-- A strict comparator win extends "at least as good" transitively. -/
theorem quoteCompFn_cmpGE (routeType : TradeType) {a b c : ℚ}
    (h : quoteCompFn routeType a b = true) (hge : cmpGE routeType b c) :
    cmpGE routeType a c := by
  cases routeType with
  | EXACT_INPUT =>
    simp only [quoteCompFn, decide_eq_true_eq] at h
    simp only [cmpGE] at *
    exact le_of_lt (lt_of_le_of_lt hge h)
  | EXACT_OUTPUT =>
    simp only [quoteCompFn, decide_eq_true_eq] at h
    simp only [cmpGE] at *
    exact le_of_lt (lt_of_lt_of_le h hge)

/-- Pool-disjointness of route amounts is symmetric. -/
theorem routeAmountsDisjoint_symm {a b : RouteAmount}
    (h : RouteAmountsDisjoint a b) : RouteAmountsDisjoint b a :=
  fun p1 h1 p2 h2 => (h p2 h2 p1 h1).symm

/-- One 2-split iteration preserves the search invariant. -/
theorem split2Step_inv (routeType : TradeType) (sorted : Buckets)
    (quoteOf : RouteWithValidQuote → ℚ) (baseline : ℚ) (st : BestState)
    (percentA : Int) (st' : BestState)
    (h : split2Step routeType sorted quoteOf st percentA = .ok st')
    (hinv : SearchInv routeType quoteOf baseline st) :
    SearchInv routeType quoteOf baseline st' := by
  unfold split2Step at h
  match h1 : lookupBucket sorted percentA with
  | none => simp only [h1] at h; cases h
  | some bucketA =>
    simp only [h1] at h
    match h2 : bucketA.head? with
    | none => simp only [h2] at h; cases h
    | some routeWithQuoteA =>
      simp only [h2] at h
      match h3 : lookupBucket sorted (100 - percentA) with
      | none =>
        simp only [h3] at h
        cases h
        exact hinv
      | some candidateRoutesB =>
        simp only [h3] at h
        match h4 : findFirstRouteNotUsingUsedPools [routeWithQuoteA.route]
            candidateRoutesB with
        | none =>
          simp only [h4] at h
          cases h
          exact hinv
        | some routeWithQuoteB =>
          simp only [h4] at h
          by_cases h5 : quoteCompFn routeType
              (quoteOf routeWithQuoteA + quoteOf routeWithQuoteB) st.bestQuote = true
          · rw [if_pos h5] at h
            cases h
            have hdisj := (findFirst_spec _ _ _ h4).2 routeWithQuoteA.route
              (List.mem_cons_self _ _)
            refine ⟨by simp, ?_, by simp, quoteCompFn_cmpGE routeType h5 hinv.mono⟩
            refine List.pairwise_cons.mpr ⟨?_, by simp⟩
            intro b hb
            have hb2 : b = routeWithQuoteB := by simpa using hb
            rw [hb2]
            exact hdisj
          · rw [if_neg h5] at h
            cases h
            exact hinv

/-- One inner 3-split iteration preserves the search invariant. -/
theorem split3InnerStep_inv (routeType : TradeType) (sorted : Buckets)
    (quoteOf : RouteWithValidQuote → ℚ) (baseline : ℚ)
    (routeWithQuoteA : RouteWithValidQuote) (remainingPercent : Int)
    (st : BestState) (percentB : Int) (st' : BestState)
    (h : split3InnerStep routeType sorted quoteOf routeWithQuoteA remainingPercent
      st percentB = .ok st')
    (hinv : SearchInv routeType quoteOf baseline st) :
    SearchInv routeType quoteOf baseline st' := by
  unfold split3InnerStep at h
  match h1 : lookupBucket sorted percentB with
  | none => simp only [h1] at h; cases h
  | some candidateRoutesB =>
    simp only [h1] at h
    match h2 : findFirstRouteNotUsingUsedPools [routeWithQuoteA.route]
        candidateRoutesB with
    | none =>
      simp only [h2] at h
      cases h
      exact hinv
    | some routeWithQuoteB =>
      simp only [h2] at h
      match h3 : lookupBucket sorted (remainingPercent - percentB) with
      | none =>
        simp only [h3] at h
        cases h
        exact hinv
      | some candidateRoutesC =>
        simp only [h3] at h
        match h4 : findFirstRouteNotUsingUsedPools
            [routeWithQuoteA.route, routeWithQuoteB.route] candidateRoutesC with
        | none =>
          simp only [h4] at h
          cases h
          exact hinv
        | some routeWithQuoteC =>
          simp only [h4] at h
          by_cases h5 : quoteCompFn routeType
              (quoteOf routeWithQuoteA + quoteOf routeWithQuoteB +
                quoteOf routeWithQuoteC) st.bestQuote = true
          · rw [if_pos h5] at h
            cases h
            have hAB := (findFirst_spec _ _ _ h2).2 routeWithQuoteA.route
              (List.mem_cons_self _ _)
            have hAC := (findFirst_spec _ _ _ h4).2 routeWithQuoteA.route
              (List.mem_cons_self _ _)
            have hBC := (findFirst_spec _ _ _ h4).2 routeWithQuoteB.route
              (by simp)
            refine ⟨by simp, ?_, by simp [add_assoc], quoteCompFn_cmpGE routeType h5 hinv.mono⟩
            refine List.pairwise_cons.mpr ⟨?_, List.pairwise_cons.mpr ⟨?_, by simp⟩⟩
            · intro b hb
              rcases (by simpa using hb : b = routeWithQuoteB ∨ b = routeWithQuoteC) with
                hb2 | hb2
              · rw [hb2]; exact hAB
              · rw [hb2]; exact hAC
            · intro c hc
              have hc2 : c = routeWithQuoteC := by simpa using hc
              rw [hc2]
              exact hBC
          · rw [if_neg h5] at h
            cases h
            exact hinv

/-- One outer 3-split iteration preserves the search invariant. -/
theorem split3OuterStep_inv (routeType : TradeType) (sorted : Buckets)
    (quoteOf : RouteWithValidQuote → ℚ) (baseline : ℚ) (st : BestState)
    (pa : Int × List Int) (st' : BestState)
    (h : split3OuterStep routeType sorted quoteOf st pa = .ok st')
    (hinv : SearchInv routeType quoteOf baseline st) :
    SearchInv routeType quoteOf baseline st' := by
  unfold split3OuterStep at h
  match h1 : lookupBucket sorted pa.1 with
  | none => simp only [h1] at h; cases h
  | some bucketA =>
    simp only [h1] at h
    match h2 : bucketA.head? with
    | none => simp only [h2] at h; cases h
    | some routeWithQuoteA =>
      simp only [h2] at h
      exact foldlM_except_preserve _ (SearchInv routeType quoteOf baseline)
        (fun s b s' hf hp =>
          split3InnerStep_inv routeType sorted quoteOf baseline routeWithQuoteA
            (100 - pa.1) s b s' hf hp)
        pa.2 st st' h hinv

/-- One pass of the `while` body preserves any property preserved by both
split passes. -/
theorem splitStep_preserve (routeType : TradeType) (sorted : Buckets)
    (percents : List Int) (quoteOf : RouteWithValidQuote → ℚ)
    (P : BestState → Prop)
    (h2step : ∀ st pA st', split2Step routeType sorted quoteOf st pA = .ok st' →
      P st → P st')
    (h3step : ∀ st pa st', split3OuterStep routeType sorted quoteOf st pa = .ok st' →
      P st → P st')
    (st : BestState) (splits : Nat) (st' : BestState)
    (h : splitStep routeType sorted percents quoteOf st splits = .ok st')
    (hp : P st) : P st' := by
  unfold splitStep at h
  match hs1 : (if splits == 2 then
      (percents.take ((percents.length + 1) / 2)).foldlM
        (split2Step routeType sorted quoteOf) st
    else .ok st) with
  | .error e => simp only [hs1] at h; cases h
  | .ok st1 =>
    simp only [hs1] at h
    have hp1 : P st1 := by
      by_cases hc : (splits == 2) = true
      · rw [if_pos hc] at hs1
        exact foldlM_except_preserve _ P h2step _ st st1 hs1 hp
      · rw [if_neg hc] at hs1
        cases hs1
        exact hp
    match hs2 : (if splits == 3 && st1.bestSwap.length == 2 then
        (withSuccessors percents).foldlM (split3OuterStep routeType sorted quoteOf) st1
      else .ok st1) with
    | .error e => simp only [hs2] at h; cases h
    | .ok st2 =>
      simp only [hs2] at h
      have hp2 : P st2 := by
        by_cases hc : (splits == 3 && st1.bestSwap.length == 2) = true
        · rw [if_pos hc] at hs2
          exact foldlM_except_preserve _ P h3step _ st1 st2 hs2 hp1
        · rw [if_neg hc] at hs2
          cases hs2
          exact hp1
      by_cases hc : (splits == 4) = true
      · rw [if_pos hc] at h
        cases h
      · rw [if_neg hc] at h
        cases h
        exact hp2

/-- One 2-split iteration keeps the percent sum at 100 (using bucket
consistency: `percentB := 100 − percentA`). -/
theorem split2Step_perc (routeType : TradeType) (sorted : Buckets)
    (quoteOf : RouteWithValidQuote → ℚ) (hcons : BucketConsistent sorted)
    (st : BestState) (percentA : Int) (st' : BestState)
    (h : split2Step routeType sorted quoteOf st percentA = .ok st')
    (hp : PercSum100 st) : PercSum100 st' := by
  unfold split2Step at h
  match h1 : lookupBucket sorted percentA with
  | none => simp only [h1] at h; cases h
  | some bucketA =>
    simp only [h1] at h
    match h2 : bucketA.head? with
    | none => simp only [h2] at h; cases h
    | some routeWithQuoteA =>
      simp only [h2] at h
      match h3 : lookupBucket sorted (100 - percentA) with
      | none => simp only [h3] at h; cases h; exact hp
      | some candidateRoutesB =>
        simp only [h3] at h
        match h4 : findFirstRouteNotUsingUsedPools [routeWithQuoteA.route]
            candidateRoutesB with
        | none => simp only [h4] at h; cases h; exact hp
        | some routeWithQuoteB =>
          simp only [h4] at h
          by_cases h5 : quoteCompFn routeType
              (quoteOf routeWithQuoteA + quoteOf routeWithQuoteB) st.bestQuote = true
          · rw [if_pos h5] at h
            cases h
            have hA : routeWithQuoteA.percent = percentA :=
              hcons percentA bucketA h1 routeWithQuoteA (head?_mem h2)
            have hB : routeWithQuoteB.percent = 100 - percentA :=
              hcons (100 - percentA) candidateRoutesB h3 routeWithQuoteB
                (findFirst_spec _ _ _ h4).1
            unfold PercSum100
            simp only [List.map_cons, List.map_nil, List.sum_cons, List.sum_nil,
              hA, hB]
            omega
          · rw [if_neg h5] at h
            cases h
            exact hp

/-- One inner 3-split iteration keeps the percent sum at 100
(`percentC := remainingPercent − percentB`,
`remainingPercent = 100 − percentA`). -/
theorem split3InnerStep_perc (routeType : TradeType) (sorted : Buckets)
    (quoteOf : RouteWithValidQuote → ℚ) (hcons : BucketConsistent sorted)
    (routeWithQuoteA : RouteWithValidQuote) (remainingPercent : Int)
    (hrem : remainingPercent = 100 - routeWithQuoteA.percent)
    (st : BestState) (percentB : Int) (st' : BestState)
    (h : split3InnerStep routeType sorted quoteOf routeWithQuoteA remainingPercent
      st percentB = .ok st')
    (hp : PercSum100 st) : PercSum100 st' := by
  unfold split3InnerStep at h
  match h1 : lookupBucket sorted percentB with
  | none => simp only [h1] at h; cases h
  | some candidateRoutesB =>
    simp only [h1] at h
    match h2 : findFirstRouteNotUsingUsedPools [routeWithQuoteA.route]
        candidateRoutesB with
    | none => simp only [h2] at h; cases h; exact hp
    | some routeWithQuoteB =>
      simp only [h2] at h
      match h3 : lookupBucket sorted (remainingPercent - percentB) with
      | none => simp only [h3] at h; cases h; exact hp
      | some candidateRoutesC =>
        simp only [h3] at h
        match h4 : findFirstRouteNotUsingUsedPools
            [routeWithQuoteA.route, routeWithQuoteB.route] candidateRoutesC with
        | none => simp only [h4] at h; cases h; exact hp
        | some routeWithQuoteC =>
          simp only [h4] at h
          by_cases h5 : quoteCompFn routeType
              (quoteOf routeWithQuoteA + quoteOf routeWithQuoteB +
                quoteOf routeWithQuoteC) st.bestQuote = true
          · rw [if_pos h5] at h
            cases h
            have hB : routeWithQuoteB.percent = percentB :=
              hcons percentB candidateRoutesB h1 routeWithQuoteB
                (findFirst_spec _ _ _ h2).1
            have hC : routeWithQuoteC.percent = remainingPercent - percentB :=
              hcons (remainingPercent - percentB) candidateRoutesC h3 routeWithQuoteC
                (findFirst_spec _ _ _ h4).1
            unfold PercSum100
            simp only [List.map_cons, List.map_nil, List.sum_cons, List.sum_nil,
              hB, hC]
            omega
          · rw [if_neg h5] at h
            cases h
            exact hp

/-- One outer 3-split iteration keeps the percent sum at 100. -/
theorem split3OuterStep_perc (routeType : TradeType) (sorted : Buckets)
    (quoteOf : RouteWithValidQuote → ℚ) (hcons : BucketConsistent sorted)
    (st : BestState) (pa : Int × List Int) (st' : BestState)
    (h : split3OuterStep routeType sorted quoteOf st pa = .ok st')
    (hp : PercSum100 st) : PercSum100 st' := by
  unfold split3OuterStep at h
  match h1 : lookupBucket sorted pa.1 with
  | none => simp only [h1] at h; cases h
  | some bucketA =>
    simp only [h1] at h
    match h2 : bucketA.head? with
    | none => simp only [h2] at h; cases h
    | some routeWithQuoteA =>
      simp only [h2] at h
      have hA : routeWithQuoteA.percent = pa.1 :=
        hcons pa.1 bucketA h1 routeWithQuoteA (head?_mem h2)
      exact foldlM_except_preserve _ PercSum100
        (fun s b s' hf hps =>
          split3InnerStep_perc routeType sorted quoteOf hcons routeWithQuoteA
            (100 - pa.1) (by rw [hA]) s b s' hf hps)
        pa.2 st st' h hp

/-- Unpacking a successful `getBestSwapRouteBy` run: the sorted 100% bucket,
its head (the baseline), the final search state, and the assembled plan. -/
theorem getBestSwapRouteBy_ok_some (routeType : TradeType)
    (percentToQuotes : Buckets) (percents : List Int)
    (quoteOf : RouteWithValidQuote → ℚ) (maxSplits : Nat) (plan : SwapPlanRaw)
    (h : getBestSwapRouteBy routeType percentToQuotes percents quoteOf maxSplits =
      .ok (some plan)) :
    ∃ bucket100 best0 st,
      lookupBucket (sortBuckets routeType quoteOf percentToQuotes) 100 =
        some bucket100 ∧
      bucket100.head? = some best0 ∧
      (splitsRange maxSplits).foldlM
        (splitStep routeType (sortBuckets routeType quoteOf percentToQuotes)
          percents quoteOf)
        { bestQuote := quoteOf best0, bestSwap := [best0] } = .ok st ∧
      plan = assemblePlan st.bestSwap := by
  unfold getBestSwapRouteBy at h
  match h1 : lookupBucket (sortBuckets routeType quoteOf percentToQuotes) 100 with
  | none => simp only [h1] at h; cases h
  | some bucket100 =>
    simp only [h1] at h
    match h2 : bucket100.head? with
    | none => simp only [h2] at h; cases h
    | some best0 =>
      simp only [h2] at h
      match h3 : (splitsRange maxSplits).foldlM
          (splitStep routeType (sortBuckets routeType quoteOf percentToQuotes)
            percents quoteOf)
          { bestQuote := quoteOf best0, bestSwap := [best0] } with
      | .error e => simp only [h3] at h; cases h
      | .ok st =>
        simp only [h3] at h
        refine ⟨bucket100, best0, st, rfl, h2, h3, ?_⟩
        cases h
        rfl

/-- The assembled plan's route amounts are a permutation of the mapped
search components. -/
theorem assemblePlan_routeAmounts_perm (bestSwap : List RouteWithValidQuote) :
    (assemblePlan bestSwap).routeAmounts.Perm (bestSwap.map toRouteAmount) :=
  sortByComparator_perm _ _

/-- C1: every plan produced by `getBestSwapRouteBy` has pairwise
pool-disjoint route components (so in particular any plan with two or more
components is pairwise pool-disjoint). -/
theorem getBestSwapRouteBy_pool_disjoint (routeType : TradeType)
    (percentToQuotes : Buckets) (percents : List Int)
    (quoteOf : RouteWithValidQuote → ℚ) (maxSplits : Nat) (plan : SwapPlanRaw)
    (h : getBestSwapRouteBy routeType percentToQuotes percents quoteOf maxSplits =
      .ok (some plan)) :
    plan.routeAmounts.Pairwise RouteAmountsDisjoint := by
  obtain ⟨bucket100, best0, st, h1, h2, h3, h4⟩ :=
    getBestSwapRouteBy_ok_some routeType percentToQuotes percents quoteOf maxSplits plan h
  have hinit : SearchInv routeType quoteOf (quoteOf best0)
      { bestQuote := quoteOf best0, bestSwap := [best0] } :=
    ⟨by simp, by simp, by simp, cmpGE_refl routeType (quoteOf best0)⟩
  have hinv : SearchInv routeType quoteOf (quoteOf best0) st :=
    foldlM_except_preserve _ _
      (fun s a s' hf hp => splitStep_preserve routeType _ percents quoteOf _
        (fun st pA st' hh hps => split2Step_inv routeType _ quoteOf _ st pA st' hh hps)
        (fun st pa st' hh hps => split3OuterStep_inv routeType _ quoteOf _ st pa st' hh hps)
        s a s' hf hp)
      (splitsRange maxSplits) _ st h3 hinit
  subst h4
  have hpair : (st.bestSwap.map toRouteAmount).Pairwise RouteAmountsDisjoint :=
    List.Pairwise.map toRouteAmount (fun a b hab => hab) hinv.disjoint
  exact ((assemblePlan_routeAmounts_perm st.bestSwap).pairwise_iff
    (fun hab => routeAmountsDisjoint_symm hab)).mpr hpair

/-- Witness for the pool-disjointness theorem: a concrete run where a 50/50
split over two distinct pools wins. -/
theorem getBestSwapRouteBy_pool_disjoint_witness :
    (assemblePlan [exQA, exQB]).routeAmounts.Pairwise RouteAmountsDisjoint :=
  getBestSwapRouteBy_pool_disjoint .EXACT_INPUT exBuckets exPercents
    (fun rq => rq.quoteAdjustedForGas) 3 (assemblePlan [exQA, exQB]) (by rfl)

/-- C2: for every plan produced by `getBestSwapRouteBy` over consistent
buckets, the component percentages sum to exactly 100 and the plan's quote,
gas-adjusted quote and gas estimate are the exact sums of the components'. -/
theorem getBestSwapRouteBy_plan_sums (routeType : TradeType)
    (percentToQuotes : Buckets) (percents : List Int)
    (quoteOf : RouteWithValidQuote → ℚ) (maxSplits : Nat) (plan : SwapPlanRaw)
    (hcons : bucketConsistentB percentToQuotes = true)
    (h : getBestSwapRouteBy routeType percentToQuotes percents quoteOf maxSplits =
      .ok (some plan)) :
    (plan.routeAmounts.map (fun ra => ra.percentage)).sum = 100 ∧
    plan.quote = (plan.routeAmounts.map (fun ra => ra.quote)).sum ∧
    plan.quoteGasAdjusted =
      (plan.routeAmounts.map (fun ra => ra.quoteGasAdjusted)).sum ∧
    plan.estimatedGasUsed =
      (plan.routeAmounts.map (fun ra => ra.estimatedGasUsed)).sum := by
  obtain ⟨bucket100, best0, st, h1, h2, h3, h4⟩ :=
    getBestSwapRouteBy_ok_some routeType percentToQuotes percents quoteOf maxSplits plan h
  have hconsS : BucketConsistent (sortBuckets routeType quoteOf percentToQuotes) :=
    bucketConsistent_sortBuckets routeType quoteOf percentToQuotes
      (bucketConsistent_of_B percentToQuotes hcons)
  have hinit : PercSum100 { bestQuote := quoteOf best0, bestSwap := [best0] } := by
    unfold PercSum100
    have h100 : best0.percent = 100 := hconsS 100 bucket100 h1 best0 (head?_mem h2)
    simp [h100]
  have hperc : PercSum100 st :=
    foldlM_except_preserve _ PercSum100
      (fun s a s' hf hp => splitStep_preserve routeType _ percents quoteOf PercSum100
        (fun st pA st' hh hps => split2Step_perc routeType _ quoteOf hconsS st pA st' hh hps)
        (fun st pa st' hh hps => split3OuterStep_perc routeType _ quoteOf hconsS st pa st' hh hps)
        s a s' hf hp)
      (splitsRange maxSplits) _ st h3 hinit
  subst h4
  have hperm := assemblePlan_routeAmounts_perm st.bestSwap
  refine ⟨?_, ?_, ?_, ?_⟩
  · rw [(hperm.map (fun ra => ra.percentage)).sum_eq, List.map_map]
    exact hperc
  · show sumCA (st.bestSwap.map (fun rq => rq.quote)) = _
    rw [sumCA_eq_sum, (hperm.map (fun ra => ra.quote)).sum_eq, List.map_map]
    rfl
  · show sumCA (st.bestSwap.map (fun rq => rq.quoteAdjustedForGas)) = _
    rw [sumCA_eq_sum, (hperm.map (fun ra => ra.quoteGasAdjusted)).sum_eq, List.map_map]
    rfl
  · show (st.bestSwap.map (fun rq => rq.gasEstimate)).foldl (· + ·) 0 = _
    rw [foldl_add_eq_sum, (hperm.map (fun ra => ra.estimatedGasUsed)).sum_eq,
      List.map_map, Nat.zero_add]
    rfl

/-- Witness for the plan-sums theorem on the concrete 50/50-split run. -/
theorem getBestSwapRouteBy_plan_sums_witness :
    ((assemblePlan [exQA, exQB]).routeAmounts.map (fun ra => ra.percentage)).sum = 100 ∧
    (assemblePlan [exQA, exQB]).quote =
      ((assemblePlan [exQA, exQB]).routeAmounts.map (fun ra => ra.quote)).sum ∧
    (assemblePlan [exQA, exQB]).quoteGasAdjusted =
      ((assemblePlan [exQA, exQB]).routeAmounts.map (fun ra => ra.quoteGasAdjusted)).sum ∧
    (assemblePlan [exQA, exQB]).estimatedGasUsed =
      ((assemblePlan [exQA, exQB]).routeAmounts.map (fun ra => ra.estimatedGasUsed)).sum :=
  getBestSwapRouteBy_plan_sums .EXACT_INPUT exBuckets exPercents
    (fun rq => rq.quoteAdjustedForGas) 3 (assemblePlan [exQA, exQB]) (by rfl) (by rfl)

/-- C8: for every successful search driven by `quoteAdjustedForGas`, the
plan's gas-adjusted quote is at least as good - greater-or-equal for
EXACT_IN, less-or-equal for EXACT_OUT - as the best single 100% route's
`quoteAdjustedForGas` (the baseline). -/
theorem getBestSwapRouteBy_monotone (routeType : TradeType)
    (percentToQuotes : Buckets) (percents : List Int) (maxSplits : Nat)
    (plan : SwapPlanRaw) (best0 : RouteWithValidQuote)
    (hb : baselineRWVQ routeType percentToQuotes
      (fun rq => rq.quoteAdjustedForGas) = some best0)
    (h : getBestSwapRouteBy routeType percentToQuotes percents
      (fun rq => rq.quoteAdjustedForGas) maxSplits = .ok (some plan)) :
    cmpGE routeType plan.quoteGasAdjusted best0.quoteAdjustedForGas := by
  obtain ⟨bucket100, best0', st, h1, h2, h3, h4⟩ :=
    getBestSwapRouteBy_ok_some routeType percentToQuotes percents
      (fun rq => rq.quoteAdjustedForGas) maxSplits plan h
  have hbb : best0' = best0 := by
    unfold baselineRWVQ at hb
    rw [h1] at hb
    have hb2 : bucket100.head? = some best0 := hb
    have := h2.symm.trans hb2
    exact Option.some.inj this
  have hinit : SearchInv routeType (fun rq => rq.quoteAdjustedForGas)
      (best0'.quoteAdjustedForGas)
      { bestQuote := best0'.quoteAdjustedForGas, bestSwap := [best0'] } :=
    ⟨by simp, by simp, by simp, cmpGE_refl routeType _⟩
  have hinv : SearchInv routeType (fun rq => rq.quoteAdjustedForGas)
      best0'.quoteAdjustedForGas st :=
    foldlM_except_preserve _ _
      (fun s a s' hf hp => splitStep_preserve routeType _ percents
        (fun rq => rq.quoteAdjustedForGas) _
        (fun st pA st' hh hps => split2Step_inv routeType _ _ _ st pA st' hh hps)
        (fun st pa st' hh hps => split3OuterStep_inv routeType _ _ _ st pa st' hh hps)
        s a s' hf hp)
      (splitsRange maxSplits) _ st h3 hinit
  subst h4
  have hq : (assemblePlan st.bestSwap).quoteGasAdjusted = st.bestQuote := by
    show sumCA (st.bestSwap.map (fun rq => rq.quoteAdjustedForGas)) = st.bestQuote
    rw [sumCA_eq_sum]
    exact hinv.quoteSum.symm
  rw [hq, ← hbb]
  exact hinv.mono

/-- Witness for the monotone-splits theorem: the concrete 50/50 split (12)
beats the 100% baseline (10). -/
theorem getBestSwapRouteBy_monotone_witness :
    cmpGE .EXACT_INPUT (assemblePlan [exQA, exQB]).quoteGasAdjusted
      exQ100.quoteAdjustedForGas :=
  getBestSwapRouteBy_monotone .EXACT_INPUT exBuckets exPercents 3
    (assemblePlan [exQA, exQB]) exQ100 (by rfl) (by rfl)

/-- Pushing into a bucket leaves a key unbucketed iff it was unbucketed and
is not the pushed key. -/
theorem lookupBucket_pushBucket_none (bs : Buckets) (p : Int)
    (q : RouteWithValidQuote) (k : Int) :
    lookupBucket (pushBucket bs p q) k = none ↔
      (lookupBucket bs k = none ∧ ¬ k = p) := by
  induction bs with
  | nil =>
    by_cases hc : p = k
    · subst hc
      simp [pushBucket, lookupBucket, List.find?]
    · have hc2 : (p == k) = false := by simpa using hc
      have hc3 : ¬ k = p := fun h => hc h.symm
      simp [pushBucket, lookupBucket, List.find?, hc2, hc3]
  | cons e rest ih =>
    rcases e with ⟨ek, ev⟩
    by_cases hc : ek = p
    · subst hc
      by_cases hck : ek = k
      · subst hck
        simp [pushBucket, lookupBucket, List.find?]
      · have hck2 : (ek == k) = false := by simpa using hck
        have hck3 : ¬ k = ek := fun h => hck h.symm
        simp [pushBucket, lookupBucket, List.find?, hck2, hck3]
    · have hc2 : (ek == p) = false := by simpa using hc
      by_cases hck : ek = k
      · subst hck
        simp [pushBucket, lookupBucket, List.find?, hc2]
      · have hck2 : (ek == k) = false := by simpa using hck
        have hih := ih
        simp only [lookupBucket, List.find?] at hih
        simp [pushBucket, lookupBucket, List.find?, hc2, hck2, hih]

/-- One bucketing inner step leaves a key unbucketed iff it was unbucketed
and this quote does not validly land on it. -/
theorem lookupBucket_quoteStep_none (gasModel : GasModel) (routeType : TradeType)
    (route : RouteSOR) (bs : Buckets) (pq : Int × AmountQuote) (k : Int) :
    lookupBucket (quoteStep gasModel routeType route bs pq) k = none ↔
      (lookupBucket bs k = none ∧ ¬(pq.1 = k ∧ isValidAmountQuote pq.2 = true)) := by
  unfold quoteStep
  rcases h1 : pq.2.quote with _ | q1 <;>
    rcases h2 : pq.2.sqrtPriceX96AfterList with _ | q2 <;>
    rcases h3 : pq.2.initializedTicksCrossedList with _ | q3 <;>
    rcases h4 : pq.2.gasEstimate with _ | q4 <;>
    simp [isValidAmountQuote, h1, h2, h3, h4, lookupBucket_pushBucket_none] <;>
    exact fun _ => ⟨fun hne he => hne he.symm, fun hne he => hne he.symm⟩

/-- A whole route's bucketing pass leaves a key unbucketed iff it was
unbucketed and no valid quote of the route lands on it. -/
theorem lookupBucket_routeStep_none (gasModel : GasModel) (routeType : TradeType)
    (percents : List Int) (rwq : RouteSOR × List AmountQuote) (k : Int) :
    ∀ (bs : Buckets),
      lookupBucket (routeStep gasModel routeType percents bs rwq) k = none ↔
        (lookupBucket bs k = none ∧ ∀ pq ∈ percents.zip rwq.2,
          ¬(pq.1 = k ∧ isValidAmountQuote pq.2 = true)) := by
  unfold routeStep
  generalize percents.zip rwq.2 = pqs
  induction pqs with
  | nil => intro bs; simp
  | cons pq rest ih =>
    intro bs
    rw [List.foldl_cons, ih, lookupBucket_quoteStep_none]
    simp only [List.mem_cons]
    constructor
    · rintro ⟨⟨hn, hpq⟩, hrest⟩
      refine ⟨hn, ?_⟩
      rintro x (rfl | hx)
      · exact hpq
      · exact hrest x hx
    · rintro ⟨hn, hall⟩
      exact ⟨⟨hn, hall pq (Or.inl rfl)⟩, fun x hx => hall x (Or.inr hx)⟩

/-- The full bucketing fold leaves a key unbucketed iff no valid quote of any
route lands on it. -/
theorem lookupBucket_buildFold_none (gasModel : GasModel) (routeType : TradeType)
    (percents : List Int) (routesWithQuotes : List (RouteSOR × List AmountQuote))
    (k : Int) :
    ∀ (acc : Buckets),
      lookupBucket (routesWithQuotes.foldl (routeStep gasModel routeType percents) acc)
          k = none ↔
        (lookupBucket acc k = none ∧ ∀ rwq ∈ routesWithQuotes,
          ∀ pq ∈ percents.zip rwq.2, ¬(pq.1 = k ∧ isValidAmountQuote pq.2 = true)) := by
  induction routesWithQuotes with
  | nil => intro acc; simp
  | cons rwq rest ih =>
    intro acc
    rw [List.foldl_cons, ih, lookupBucket_routeStep_none]
    simp only [List.mem_cons]
    constructor
    · rintro ⟨⟨hn, hpq⟩, hrest⟩
      refine ⟨hn, ?_⟩
      rintro x (rfl | hx)
      · exact hpq
      · exact hrest x hx
    · rintro ⟨hn, hall⟩
      exact ⟨⟨hn, hall rwq (Or.inl rfl)⟩, fun x hx => hall x (Or.inr hx)⟩

/-- The bucketing pass creates no bucket at `k` iff no route has a valid
quote at percent `k`. -/
theorem lookupBucket_build_none (gasModel : GasModel) (routeType : TradeType)
    (percents : List Int) (routesWithQuotes : List (RouteSOR × List AmountQuote))
    (k : Int) :
    lookupBucket (buildPercentToQuotes gasModel routeType percents routesWithQuotes)
        k = none ↔
      hasValidQuoteAt percents routesWithQuotes k = false := by
  unfold buildPercentToQuotes
  rw [lookupBucket_buildFold_none]
  unfold hasValidQuoteAt
  rw [List.any_eq_false]
  constructor
  · rintro ⟨-, hall⟩ rwq hrwq
    rw [Bool.not_eq_true, List.any_eq_false]
    intro pq hpq
    rw [Bool.not_eq_true]
    have h1 := hall rwq hrwq pq hpq
    by_cases hk : pq.1 = k
    · by_cases hv : isValidAmountQuote pq.2 = true
      · exact absurd ⟨hk, hv⟩ h1
      · simp [hv]
    · have : (pq.1 == k) = false := by simpa using hk
      simp [this]
  · intro hall
    refine ⟨by simp [lookupBucket], ?_⟩
    intro rwq hrwq pq hpq
    rintro ⟨hk, hv⟩
    have h1 := hall rwq hrwq
    rw [Bool.not_eq_true, List.any_eq_false] at h1
    have h2 := h1 pq hpq
    rw [Bool.not_eq_true] at h2
    have hk2 : (pq.1 == k) = true := by simpa using hk
    rw [hk2, hv] at h2
    cases h2

/-- The split optimiser returns JS `undefined` exactly when the (sorted)
100% bucket is absent. -/
theorem getBestSwapRouteBy_ok_none_iff (routeType : TradeType)
    (percentToQuotes : Buckets) (percents : List Int)
    (quoteOf : RouteWithValidQuote → ℚ) (maxSplits : Nat) :
    getBestSwapRouteBy routeType percentToQuotes percents quoteOf maxSplits =
        .ok none ↔
      lookupBucket percentToQuotes 100 = none := by
  constructor
  · intro h
    unfold getBestSwapRouteBy at h
    match h1 : lookupBucket (sortBuckets routeType quoteOf percentToQuotes) 100 with
    | none =>
      rw [lookupBucket_sortBuckets] at h1
      exact Option.map_eq_none'.mp h1
    | some bucket100 =>
      simp only [h1] at h
      match h2 : bucket100.head? with
      | none => simp only [h2] at h; cases h
      | some best0 =>
        simp only [h2] at h
        match h3 : (splitsRange maxSplits).foldlM
            (splitStep routeType (sortBuckets routeType quoteOf percentToQuotes)
              percents quoteOf)
            { bestQuote := quoteOf best0, bestSwap := [best0] } with
        | .error e => simp only [h3] at h; cases h
        | .ok st => simp only [h3] at h; cases h
  · intro h
    unfold getBestSwapRouteBy
    have h1 : lookupBucket (sortBuckets routeType quoteOf percentToQuotes) 100 =
        none := by
      rw [lookupBucket_sortBuckets, h]
      rfl
    simp only [h1]

/-- Amended C3: `getBestSwapRoute` returns `null` (not an error) exactly
when, after dropping invalid quotes, no valid quote sits at 100%.  (When a
valid 100% quote exists the outcome is a plan or a thrown `TypeError` from
a missing percent bucket - never `null`.) -/
theorem getBestSwapRoute_null_iff (routeType : TradeType) (gasModel : GasModel)
    (percents : List Int) (routesWithQuotes : List (RouteSOR × List AmountQuote))
    (maxSplits : Nat) :
    getBestSwapRoute routeType gasModel percents routesWithQuotes maxSplits =
        .ok none ↔
      hasValidQuoteAt percents routesWithQuotes 100 = false := by
  unfold getBestSwapRoute
  rw [getBestSwapRouteBy_ok_none_iff, lookupBucket_build_none]

/-- Witness for the null-iff theorem: every quote invalid, so the search
returns the null plan. -/
theorem getBestSwapRoute_null_iff_witness :
    getBestSwapRoute .EXACT_INPUT exGasModel exPercents
      [(exRoute1, [exAmountQuoteInvalid, exAmountQuoteInvalid])] 3 = .ok none :=
  (getBestSwapRoute_null_iff .EXACT_INPUT exGasModel exPercents
    [(exRoute1, [exAmountQuoteInvalid, exAmountQuoteInvalid])] 3).mpr (by rfl)

/-- Counterexample to C3 as stated: with percents 25/50/75/100 and the only
route's 25% quote invalid, a valid 100% quote exists, yet the optimiser does
NOT return a plan - the 2-split loop dereferences the missing 25% bucket and
throws. -/
theorem getBestSwapRoute_nonnull_error_counterexample :
    hasValidQuoteAt exPercents4 exRoutesWithQuotesC3 100 = true ∧
    getBestSwapRoute .EXACT_INPUT exGasModel exPercents4 exRoutesWithQuotesC3 3 =
      .error "TypeError: percent bucket missing in 2-split" := by
  constructor
  · rfl
  · rfl

/-- C4 (the code slip): on an input whose only invalid quote empties the 50%
bucket while the 100% bucket is fine, `getBestSwapRoute` does not drop the
invalid quote and continue - the 2-split loop reads
`percentToSortedQuotes[50][0]` on an absent bucket and throws a
`TypeError`. -/
theorem getBestSwapRoute_missing_bucket_throws :
    getBestSwapRoute .EXACT_INPUT exGasModel exPercents exRoutesWithQuotesC4 3 =
      .error "TypeError: percent bucket missing in 2-split" := by
  rfl
